import Mathlib

/-! cnxk_gpio: chip discovery, argument resolution, attribute reading, bind / unbind

A shallow embedding of `drivers/raw/cnxk_gpio/cnxk_gpio.c`.

* C strings are `List Char` (the bytes before the terminating NUL).
* `int` and `long` values are `Int`; conversions that can lose bits are
  written out (`to_int`, `to_size_t`, `clamp_long`).
* The process environment the driver touches (errno, the sysfs directory and
  attribute files, open streams, the rawdev table, the DPDK heap) is an
  explicit `World` value threaded through every function.
* Executions that run into undefined behaviour (a token that overflows the
  128 byte buffer, `sscanf` on an indeterminate buffer) yield `none`.
-/

namespace CnxkGpio

/-! ## libc: character classes, string comparison, decimal conversion -/

/-- The C locale `isspace`: space, `\t`, `\n`, `\v`, `\f`, `\r`. -/
def isspace (c : Char) : Bool :=
  c.toNat = 32 || (9 ≤ c.toNat && c.toNat ≤ 13)

/-- The C locale `isdigit`. -/
def isdigit (c : Char) : Bool :=
  48 ≤ c.toNat && c.toNat ≤ 57

/-- `strlen`. -/
def strlen (s : List Char) : Nat := s.length

/-- `strncmp(a, b, n)`: compares at most `n` bytes, the terminating NUL
counting as byte 0 and ending the comparison; the result is the difference of
the first differing bytes. -/
def strncmp : List Char → List Char → Nat → Int
  | _, _, 0 => 0
  | [], [], _ + 1 => 0
  | [], b :: _, _ + 1 => -(b.toNat : Int)
  | a :: _, [], _ + 1 => (a.toNat : Int)
  | a :: as, b :: bs, n + 1 =>
    if a.toNat ≠ b.toNat then (a.toNat : Int) - (b.toNat : Int)
    else if a.toNat = 0 then 0
    else strncmp as bs n

/-- `strcmp(a, b)`: as `strncmp` without the bound. -/
def strcmp : List Char → List Char → Int
  | [], [] => 0
  | [], b :: _ => -(b.toNat : Int)
  | a :: _, [] => (a.toNat : Int)
  | a :: as, b :: bs =>
    if a.toNat ≠ b.toNat then (a.toNat : Int) - (b.toNat : Int)
    else if a.toNat = 0 then 0
    else strcmp as bs

/-- `alphasort(a, b)` is `strcoll` of the two entry names, which in the C
locale (the driver never calls `setlocale`) is `strcmp`. -/
def alphasort (a b : List Char) : Int := strcmp a b

/-- The order `qsort` is given by `alphasort`: `a` may stand before `b`. -/
def alpha_le (a b : List Char) : Prop := alphasort a b ≤ 0

instance alpha_le_decidable : DecidableRel alpha_le :=
  fun a b => inferInstanceAs (Decidable (alphasort a b ≤ 0))

/-- The sort `scandir` performs with `alphasort`.  Any correct sort returns the same
list of names, because `alpha_le` is a total order on names
(`qsort_names_perm_invariant`); insertion sort is the executable stand-in. -/
def qsort_names (l : List (List Char)) : List (List Char) :=
  List.insertionSort alpha_le l

def LONG_MAX : Int := 2 ^ 63 - 1
def LONG_MIN : Int := -(2 ^ 63)
def INT_MAX : Int := 2 ^ 31 - 1
def INT_MIN : Int := -(2 ^ 31)

/-- Saturation of an out-of-range value as `strtol` does it. -/
def clamp_long (v : Int) : Int :=
  if v < LONG_MIN then LONG_MIN else if LONG_MAX < v then LONG_MAX else v

/-- The conversion `(int)val` of a `long`: the low 32 bits, two's complement. -/
def to_int (v : Int) : Int := (v + 2 ^ 31) % 2 ^ 32 - 2 ^ 31

/-- The conversion of an `int` to `size_t` (64 bit). -/
def to_size_t (v : Int) : Nat := (v % 2 ^ 64).toNat

/-- Value of a run of decimal digits, most significant first. -/
def digits_value (ds : List Char) : Nat :=
  ds.foldl (fun acc d => acc * 10 + (d.toNat - 48)) 0

/-- The subject sequence of a base 10 conversion (`strtol`, `%d`): leading
white space is skipped, then an optional sign, then the longest run of
digits.  `none` when the input is exhausted by the white space, `some none`
when no digit follows, `some (some v)` with the exact value otherwise. -/
def scan_decimal (s : List Char) : Option (Option Int) :=
  match s.dropWhile isspace with
  | [] => none
  | c :: cs =>
    let neg := c.toNat = 45
    let body := if c.toNat = 45 ∨ c.toNat = 43 then cs else c :: cs
    let ds := body.takeWhile isdigit
    if ds = [] then some none
    else some (some (if neg then -(digits_value ds : Int) else (digits_value ds : Int)))

def EIO_code : Nat := 5
def ENOMEM : Nat := 12
def ENODEV : Nat := 19
def EINVAL : Nat := 22
def ERANGE : Nat := 34

/-- Error numbers the environment can report; every `errno` macro is a positive
`int`. -/
inductive Errc where
  | EPERM | ENOENT | EINTR | EIO_ | EBADF | ENOMEM | EACCES | ENOTDIR | EISDIR
  | EINVAL | ENFILE | EMFILE | ENOSPC | ENAMETOOLONG | ELOOP
  deriving DecidableEq, Repr

/-- The Linux value of an error number. -/
def Errc.code : Errc → Nat
  | .EPERM => 1 | .ENOENT => 2 | .EINTR => 4 | .EIO_ => 5 | .EBADF => 9
  | .ENOMEM => 12 | .EACCES => 13 | .ENOTDIR => 20 | .EISDIR => 21
  | .EINVAL => 22 | .ENFILE => 23 | .EMFILE => 24 | .ENOSPC => 28
  | .ENAMETOOLONG => 36 | .ELOOP => 40

/-! ## The environment -/

/-- A sysfs attribute pseudo-file as the stdio calls see it: whether `fopen`
fails, the bytes it holds, whether the first read fails, whether `fclose`
fails. -/
structure SysfsFile where
  open_errno : Option Errc
  content : List Char
  read_errno : Option Errc
  close_errno : Option Errc

/-- A `char` array handed to the stdio calls: its size, and the string it
holds (`none` while the bytes are indeterminate). -/
structure CharBuf where
  size : Nat
  str : Option (List Char)

/-- `enum rte_proc_type_t` of rte_eal.h. -/
inductive rte_proc_type_t where
  | RTE_PROC_AUTO | RTE_PROC_PRIMARY | RTE_PROC_SECONDARY | RTE_PROC_INVALID
  deriving DecidableEq, Repr

/-- Per-line state (`struct cnxk_gpio`); no line is ever claimed by this file. -/
inductive cnxk_gpio where
  | mk
  deriving DecidableEq, Repr

/-- Modelled from the spec: `struct cnxk_gpiochip` of cnxk_gpio.h, which is not
among the sources: the controller index, the base line number, the line count
and the Line Slot Array (`none` is the NULL pointer, a `none` slot is a NULL
slot). -/
structure cnxk_gpiochip where
  num : Int
  base : Int
  num_gpios : Int
  gpios : Option (List (Option cnxk_gpio))
  deriving DecidableEq, Repr

/-- Modelled from the spec: the device object of the host framework
(`struct rte_rawdev` of rte_rawdev_pmd.h, not among the sources): its name and
its private data.  The `dev_ops`, `device` and `driver_name` pointers the
driver stores are read by no function modelled here. -/
structure rte_rawdev where
  name : List Char
  dev_private : cnxk_gpiochip
  deriving DecidableEq, Repr

/-- The state of the process the driver runs in. -/
structure World where
  /-- the calling thread's `errno` -/
  errno : Nat
  /-- what `rte_eal_process_type()` returns -/
  proc_type : rte_proc_type_t
  /-- the entries of `/sys/class/gpio` in on-disk order, or the error with
  which opening the directory fails -/
  class_gpio : Except Errc (List (List Char))
  /-- the attribute files, by path -/
  files : List Char → SysfsFile
  /-- number of stdio streams currently open -/
  open_streams : Nat
  /-- the table of attached raw devices -/
  rte_rawdevs : List rte_rawdev
  /-- number of live blocks of the DPDK heap -/
  heap_live : Nat
  /-- whether the DPDK heap, holding that many live blocks, can serve a
  request of that many bytes -/
  heap_grants : Nat → Nat → Bool

/-! ## libc calls on the environment -/

/-- `scandir(CNXK_GPIO_CLASS_PATH, &namelist, filter, alphasort)`: the return
value, the name list and the world.  A failure returns -1 and sets `errno`. -/
def scandir (w : World) (filter : List Char → Bool) : Int × List (List Char) × World :=
  match w.class_gpio with
  | .error e => (-1, [], { w with errno := e.code })
  | .ok names =>
    let namelist := qsort_names (names.filter filter)
    ((namelist.length : Int), namelist, w)

/-- Matching of the ordinary characters of a `scanf` format against the
input: the rest of the input, or the value `sscanf` returns (EOF = -1 when the
input ends first, 0 on a mismatch). -/
def match_literal : List Char → List Char → Except Int (List Char)
  | [], s => .ok s
  | _ :: _, [] => .error (-1)
  | f :: fs, c :: cs => if f = c then match_literal fs cs else .error 0

/-- `sscanf(str, "<lit>%d", &val)`: the return value, `*val` afterwards and the
world.  As in glibc the number is converted as `strtol` does (saturating, with
`ERANGE`) and stored through `(int)`; when the input ends where the number
should start the result is EOF and glibc leaves `errno` at 0. -/
def sscanf_d (w : World) (str lit : List Char) (val : Int) : Int × Int × World :=
  match match_literal lit str with
  | .error r => (r, val, w)
  | .ok rest =>
    match scan_decimal rest with
    | none => (-1, val, { w with errno := 0 })
    | some none => (0, val, w)
    | some (some v) =>
      (1, to_int (clamp_long v),
        if v < LONG_MIN ∨ LONG_MAX < v then { w with errno := ERANGE } else w)

/-- `strtol(nptr, NULL, 10)` of glibc: without a digit the result is 0 and
`errno` is left alone; an out-of-range value saturates and sets `ERANGE`. -/
def strtol (w : World) (nptr : List Char) : Int × World :=
  match scan_decimal nptr with
  | some (some v) =>
    if v < LONG_MIN ∨ LONG_MAX < v then (clamp_long v, { w with errno := ERANGE })
    else (v, w)
  | _ => (0, w)

/-- `fopen(path, "r")`: the stream (represented by the file it reads) or
NULL with `errno` set. -/
def fopen (w : World) (path : List Char) : Option SysfsFile × World :=
  match (w.files path).open_errno with
  | some e => (none, { w with errno := e.code })
  | none => (some (w.files path), { w with open_streams := w.open_streams + 1 })

/-- `fscanf(fp, "%s", val)`: 1 with the first white-space delimited token
stored, or EOF (-1) when a read error or the end of the file comes first; a
read error sets `errno` to its code, at the end of the file glibc leaves
`errno` at 0.  A token that does not fit the array with its NUL is undefined
behaviour (`none`). -/
def fscanf_s (w : World) (fp : SysfsFile) (val : CharBuf) : Option (Int × CharBuf × World) :=
  match fp.read_errno with
  | some e => some (-1, val, { w with errno := e.code })
  | none =>
    let tok := (fp.content.dropWhile isspace).takeWhile (fun c => !isspace c)
    if tok = [] then some (-1, val, { w with errno := 0 })
    else if val.size < tok.length + 1 then none
    else some (1, { val with str := some tok }, w)

/-- `fclose(fp)`: the stream is gone afterwards whatever the result. -/
def fclose (w : World) (fp : SysfsFile) : Int × World :=
  match fp.close_errno with
  | some e => (-1, { w with open_streams := w.open_streams - 1, errno := e.code })
  | none => (0, { w with open_streams := w.open_streams - 1 })

/-- The `%d` conversion of `snprintf`. -/
def fmt_d (v : Int) : List Char :=
  if v < 0 then Char.ofNat 45 :: Nat.toDigits 10 v.natAbs else Nat.toDigits 10 v.natAbs

/-! ## DPDK services outside the driver -/

/-- Modelled from the spec: `RTE_RAWDEV_NAME_MAX_LEN` of rte_rawdev.h (not
among the sources), the size of a device name array. -/
def RTE_RAWDEV_NAME_MAX_LEN : Nat := 64

/-- Modelled from the spec: `RTE_RAWDEV_MAX_DEVS` of rte_config.h (not among
the sources), the size of the raw device table. -/
def RTE_RAWDEV_MAX_DEVS : Nat := 64

/-- The zero-filled private data `rte_zmalloc` hands out. -/
def cnxk_gpiochip_zero : cnxk_gpiochip :=
  { num := 0, base := 0, num_gpios := 0, gpios := none }

/-- The world once a device object has entered the table and its private data
has been taken from the heap. -/
def attach_rawdev (w : World) (rawdev : rte_rawdev) : World :=
  { w with rte_rawdevs := w.rte_rawdevs ++ [rawdev], heap_live := w.heap_live + 1 }

/-- Modelled from the spec: `rte_rawdev_pmd_get_named_dev` (lib/rawdev, not
among the sources): the device object registered under the name, if any. -/
def rte_rawdev_pmd_get_named_dev (w : World) (name : List Char) : Option rte_rawdev :=
  w.rte_rawdevs.find? (fun d => decide (d.name = name))

/-- Modelled from the spec: `rte_rawdev_pmd_allocate` (lib/rawdev, not among
the sources): creates and registers the device object with zeroed private
data; NULL when the name is taken, the table is full or the heap cannot serve
the private data. -/
def rte_rawdev_pmd_allocate (w : World) (name : List Char) (dev_priv_size : Nat) :
    Option rte_rawdev × World :=
  if (rte_rawdev_pmd_get_named_dev w name).isSome then (none, w)
  else if RTE_RAWDEV_MAX_DEVS ≤ w.rte_rawdevs.length then (none, w)
  else if w.heap_grants w.heap_live dev_priv_size = false then (none, w)
  else
    let rawdev : rte_rawdev := { name := name, dev_private := cnxk_gpiochip_zero }
    (some rawdev, attach_rawdev w rawdev)

/-- Modelled from the spec: `rte_rawdev_pmd_release` (lib/rawdev, not among the
sources): the host framework releases the device object, which leaves the
table, and frees its private data. -/
def rte_rawdev_pmd_release (w : World) (rawdev : rte_rawdev) : World :=
  { w with rte_rawdevs := w.rte_rawdevs.filter (fun d => decide (d.name ≠ rawdev.name)),
           heap_live := w.heap_live - 1 }

/-- Modelled from the spec: `rte_calloc(NULL, num, size, 0)` (lib/eal, not among
the sources): a zero-filled block of `num * size` bytes (the product taken in
`size_t`), seen as an array of NULL slots; NULL for an empty request or when
the heap cannot serve it. -/
def rte_calloc (w : World) (num size : Nat) : Option (List (Option cnxk_gpio)) × World :=
  let total := (num * size) % 2 ^ 64
  if total = 0 ∨ w.heap_grants w.heap_live total = false then (none, w)
  else (some (List.replicate (total / size) none), { w with heap_live := w.heap_live + 1 })

/-- Modelled from the spec: `rte_free` (lib/eal, not among the sources);
freeing NULL does nothing. -/
def rte_free (w : World) (ptr : Option (List (Option cnxk_gpio))) : World :=
  match ptr with
  | none => w
  | some _ => { w with heap_live := w.heap_live - 1 }

/-- What the in-place stores through `rawdev->dev_private` leave in the device
table. -/
def store_private (w : World) (name : List Char) (gpiochip : cnxk_gpiochip) : World :=
  { w with rte_rawdevs :=
      w.rte_rawdevs.map (fun d => if d.name = name then { d with dev_private := gpiochip } else d) }

/-- Modelled from the spec: the key/value list `rte_kvargs_parse` (lib/kvargs,
not among the sources) builds from the argument string. -/
structure rte_kvargs where
  pairs : List (List Char × List Char)

/-- Modelled from the spec: `struct rte_devargs`; the argument string is
represented by what the tokenizer `rte_kvargs_parse(devargs->args,
cnxk_gpio_args)` makes of it, `none` when it returns NULL. -/
structure rte_devargs where
  args : Option rte_kvargs

/-- Modelled from the spec: `struct rte_vdev_device`, of which the driver uses
the device arguments. -/
structure rte_vdev_device where
  devargs : rte_devargs

/-- Modelled from the spec: `rte_kvargs_parse` (lib/kvargs, not among the
sources), see `rte_devargs`. -/
def rte_kvargs_parse (devargs : rte_devargs) : Option rte_kvargs := devargs.args

/-- Modelled from the spec: `rte_kvargs_count` (lib/kvargs, not among the
sources): the number of pairs with the key. -/
def rte_kvargs_count (kvlist : rte_kvargs) (key_match : List Char) : Nat :=
  (kvlist.pairs.filter (fun p => decide (p.1 = key_match))).length

/-- Modelled from the spec: `rte_kvargs_process` (lib/kvargs, not among the
sources): calls the handler on every pair with the key, in order; -1 as soon as
a handler returns a negative value, else 0. -/
def rte_kvargs_process (handler : World → List Char → List Char → Int → Int × Int × World)
    (key_match : List Char) :
    World → List (List Char × List Char) → Int → Int × Int × World
  | w, [], extra_args => (0, extra_args, w)
  | w, p :: ps, extra_args =>
    if p.1 = key_match then
      match handler w p.1 p.2 extra_args with
      | (r, extra_args, w) =>
        if r < 0 then (-1, extra_args, w)
        else rte_kvargs_process handler key_match w ps extra_args
    else rte_kvargs_process handler key_match w ps extra_args

/-! ## The driver: `cnxk_gpio.c` -/

def CNXK_GPIO_BUFSZ : Nat := 128

def CNXK_GPIO_CLASS_PATH : List Char := "/sys/class/gpio".toList

def CNXK_GPIO_ARG_GPIOCHIP : List Char := "gpiochip".toList

/-- Modelled from the spec: `sizeof(struct cnxk_gpiochip)` on LP64 (three `int`
and a pointer); cnxk_gpio.h is not among the sources. -/
def sizeof_cnxk_gpiochip : Nat := 24

/-- The size of `struct cnxk_gpio *` on LP64. -/
def sizeof_cnxk_gpio_ptr : Nat := 8

/-- `cnxk_gpio_format_name`: `snprintf(name, len, "cnxk_gpio")`. -/
def cnxk_gpio_format_name (len : Nat) : List Char :=
  "cnxk_gpio".toList.take (len - 1)

/-- `cnxk_gpio_filter_gpiochip`: `!strncmp(d_name, "gpiochip", strlen("gpiochip"))`. -/
def cnxk_gpio_filter_gpiochip (d_name : List Char) : Bool :=
  let pattern := "gpiochip".toList
  decide (strncmp d_name pattern (strlen pattern) = 0)

/-- `cnxk_gpio_set_defaults`: the chip and the world afterwards. -/
def cnxk_gpio_set_defaults (w : World) (gpiochip : cnxk_gpiochip) : cnxk_gpiochip × World :=
  match scandir w cnxk_gpio_filter_gpiochip with
  | (n, namelist, w) =>
    if n < 0 ∨ n = 0 then (gpiochip, w)
    else
      match namelist with
      | [] => (gpiochip, w)
      | d_name :: _ =>
        match sscanf_d w d_name "gpiochip".toList gpiochip.num with
        | (_, num, w) => ({ gpiochip with num := num }, w)

/-- `cnxk_gpio_parse_arg_gpiochip`: the return value, `*(int *)extra_args`
afterwards and the world. -/
def cnxk_gpio_parse_arg_gpiochip (w : World) (_key value : List Char) (extra_args : Int) :
    Int × Int × World :=
  match strtol { w with errno := 0 } value with
  | (val, w) =>
    if w.errno ≠ 0 then (-(w.errno : Int), extra_args, w)
    else (0, to_int val, w)

/-- `cnxk_gpio_parse_args`: the return value, the chip and the world. -/
def cnxk_gpio_parse_args (w : World) (gpiochip : cnxk_gpiochip) (devargs : rte_devargs) :
    Int × cnxk_gpiochip × World :=
  match rte_kvargs_parse devargs with
  | none => (0, gpiochip, w)
  | some kvlist =>
    if (rte_kvargs_count kvlist CNXK_GPIO_ARG_GPIOCHIP : Int) = 1 then
      match rte_kvargs_process cnxk_gpio_parse_arg_gpiochip CNXK_GPIO_ARG_GPIOCHIP
          w kvlist.pairs gpiochip.num with
      | (ret, num, w) =>
        if ret ≠ 0 then (ret, { gpiochip with num := num }, w)
        else (0, { gpiochip with num := num }, w)
    else (0, gpiochip, w)

/-- `cnxk_gpio_read_attr`: the return value, the array `val` and the world;
`none` when the token overflows `val`. -/
def cnxk_gpio_read_attr (w : World) (attr : List Char) (val : CharBuf) :
    Option (Int × CharBuf × World) :=
  match fopen w attr with
  | (none, w) => some (-(w.errno : Int), val, w)
  | (some fp, w) =>
    match fscanf_s w fp val with
    | none => none
    | some (ret, val, w) =>
      if ret < 0 then some (-(w.errno : Int), val, w)
      else if ret ≠ 1 then some (-(EIO_code : Int), val, w)
      else
        match fclose w fp with
        | (ret, w) =>
          if ret ≠ 0 then some (-(w.errno : Int), val, w)
          else some (0, val, w)

/-- `cnxk_gpio_read_attr_int`: the return value, `*val` and the world; `none`
when `sscanf` is run on the array `buf` while it is indeterminate. -/
def cnxk_gpio_read_attr_int (w : World) (attr : List Char) (val : Int) :
    Option (Int × Int × World) :=
  match cnxk_gpio_read_attr w attr { size := CNXK_GPIO_BUFSZ, str := none } with
  | none => none
  | some (ret, buf, w) =>
    if ret ≠ 0 then some (ret, val, w)
    else
      match buf.str with
      | none => none
      | some str =>
        match sscanf_d w str [] val with
        | (ret, val, w) =>
          if ret < 0 then some (-(w.errno : Int), val, w)
          else some (0, val, w)

/-- The path `snprintf(buf, sizeof(buf), "%s/gpiochip%d/<attr>",
CNXK_GPIO_CLASS_PATH, num)` leaves in `buf`. -/
def attr_path (num : Int) (attr : List Char) : List Char :=
  (CNXK_GPIO_CLASS_PATH ++ "/gpiochip".toList ++ fmt_d num ++ "/".toList ++ attr).take
    (CNXK_GPIO_BUFSZ - 1)

/-- `cnxk_gpio_probe`: the return value and the world; `none` for an execution
with undefined behaviour.  The assignments through `gpiochip` go to the
private data of the device object, which `store_private` records once the
bind is complete (on every other path the object is released).  The `RTE_LOG`
calls have no effect on the state modelled here and are left out. -/
def cnxk_gpio_probe (w : World) (dev : rte_vdev_device) : Option (Int × World) :=
  if w.proc_type ≠ rte_proc_type_t.RTE_PROC_PRIMARY then some (0, w)
  else
    let name := cnxk_gpio_format_name RTE_RAWDEV_NAME_MAX_LEN
    match rte_rawdev_pmd_allocate w name sizeof_cnxk_gpiochip with
    | (none, w) => some (-(ENOMEM : Int), w)
    | (some rawdev, w) =>
      match cnxk_gpio_set_defaults w rawdev.dev_private with
      | (gpiochip, w) =>
        match cnxk_gpio_parse_args w gpiochip dev.devargs with
        | (ret, gpiochip, w) =>
          if ret ≠ 0 then some (ret, rte_rawdev_pmd_release w rawdev)
          else
            match cnxk_gpio_read_attr_int w (attr_path gpiochip.num "base".toList)
                gpiochip.base with
            | none => none
            | some (ret, base, w) =>
              if ret ≠ 0 then some (ret, rte_rawdev_pmd_release w rawdev)
              else
                match cnxk_gpio_read_attr_int w (attr_path gpiochip.num "ngpio".toList)
                    gpiochip.num_gpios with
                | none => none
                | some (ret, num_gpios, w) =>
                  if ret ≠ 0 then some (ret, rte_rawdev_pmd_release w rawdev)
                  else
                    match rte_calloc w (to_size_t num_gpios) sizeof_cnxk_gpio_ptr with
                    | (none, w) => some (-(ENOMEM : Int), rte_rawdev_pmd_release w rawdev)
                    | (some gpios, w) =>
                      some (0, store_private w rawdev.name
                        { gpiochip with base := base, num_gpios := num_gpios,
                                        gpios := some gpios })

/-- `cnxk_gpio_remove`: the return value and the world. -/
def cnxk_gpio_remove (w : World) (_dev : rte_vdev_device) : Int × World :=
  if w.proc_type ≠ rte_proc_type_t.RTE_PROC_PRIMARY then (0, w)
  else
    let name := cnxk_gpio_format_name RTE_RAWDEV_NAME_MAX_LEN
    match rte_rawdev_pmd_get_named_dev w name with
    | none => (-(ENODEV : Int), w)
    | some rawdev =>
      (0, rte_rawdev_pmd_release (rte_free w rawdev.dev_private.gpios) rawdev)

/-! ## Concrete environments -/

/-- An attribute file that opens, holds the text and closes. -/
def plain_file (text : String) : SysfsFile :=
  { open_errno := none, content := text.toList, read_errno := none, close_errno := none }

/-- A path at which nothing exists. -/
def missing_file : SysfsFile :=
  { open_errno := some Errc.ENOENT, content := [], read_errno := none, close_errno := none }

/-- A primary process with a clean `errno`, no stream, no device and an empty
heap that serves requests below 1 MiB. -/
def world_of (listing : Except Errc (List (List Char))) (files : List Char → SysfsFile) :
    World :=
  { errno := 0, proc_type := rte_proc_type_t.RTE_PROC_PRIMARY, class_gpio := listing,
    files := files, open_streams := 0, rte_rawdevs := [], heap_live := 0,
    heap_grants := fun _ sz => decide (sz < 2 ^ 20) }

/-- A sysfs tree with a base attribute file and an ngpio attribute file at the
two paths given, and nothing anywhere else. -/
def sysfs_files (base_path ngpio_path : String) (base ngpio : SysfsFile) :
    List Char → SysfsFile :=
  fun path =>
    if path = base_path.toList then base
    else if path = ngpio_path.toList then ngpio
    else missing_file

def no_devargs : rte_vdev_device := { devargs := { args := none } }

def devargs_gpiochip (value : String) : rte_vdev_device :=
  { devargs := { args := some { pairs := [("gpiochip".toList, value.toList)] } } }

/-! ## Notions used to state the properties -/

/-- A C string holds no NUL byte. -/
def nul_free (s : List Char) : Prop := ∀ c ∈ s, c.toNat ≠ 0


/-- The value of a decimal digit character. -/
def digit_val (c : Char) : Nat := c.toNat - 48

/-- The text `s` is a base 10 integer literal of value `v`: an optional sign
followed by one or more decimal digits, read positionally. -/
def dec_literal (s : List Char) (v : Int) : Prop :=
  ∃ ds : List Char, ds ≠ [] ∧ (∀ c ∈ ds, isdigit c = true) ∧
    ((s = ds ∧ v = (Nat.ofDigits 10 (ds.reverse.map digit_val) : Nat)) ∨
     (s = Char.ofNat 43 :: ds ∧ v = (Nat.ofDigits 10 (ds.reverse.map digit_val) : Nat)) ∨
     (s = Char.ofNat 45 :: ds ∧ v = -((Nat.ofDigits 10 (ds.reverse.map digit_val) : Nat) : Int)))

/-- Two worlds that differ at most in `errno` and in the number of open
streams. -/
def same_devices (w w' : World) : Prop :=
  w'.proc_type = w.proc_type ∧ w'.class_gpio = w.class_gpio ∧ w'.files = w.files ∧
  w'.rte_rawdevs = w.rte_rawdevs ∧ w'.heap_live = w.heap_live ∧
  w'.heap_grants = w.heap_grants

/-- The first white-space delimited token of an attribute file, which
`fscanf(fp, "%s", val)` delivers. -/
def attr_token (f : SysfsFile) : List Char :=
  (f.content.dropWhile isspace).takeWhile (fun c => !isspace c)

/-- The name under which the driver registers its device object. -/
def cnxk_gpio_name : List Char := cnxk_gpio_format_name RTE_RAWDEV_NAME_MAX_LEN

/-- The device object `rte_rawdev_pmd_allocate` hands to the driver. -/
def cnxk_gpio_rawdev : rte_rawdev :=
  { name := cnxk_gpio_name, dev_private := cnxk_gpiochip_zero }

/-- A host with the single controller gpiochip2, base 64 and 32 lines. -/
def world_gpiochip2 : World :=
  world_of (.ok ["gpiochip2".toList])
    (sysfs_files "/sys/class/gpio/gpiochip2/base" "/sys/class/gpio/gpiochip2/ngpio"
      (plain_file "64\n") (plain_file "32\n"))

/-- A host that lists gpiochip2 only but also serves the attributes of
gpiochip5, base 96 and 16 lines. -/
def world_gpiochip5 : World :=
  world_of (.ok ["gpiochip2".toList])
    (sysfs_files "/sys/class/gpio/gpiochip5/base" "/sys/class/gpio/gpiochip5/ngpio"
      (plain_file "96\n") (plain_file "16\n"))

/-- A host whose gpiochip2 has a base attribute but no ngpio attribute. -/
def world_ngpio_missing : World :=
  world_of (.ok ["gpiochip2".toList])
    (sysfs_files "/sys/class/gpio/gpiochip2/base" "/sys/class/gpio/gpiochip2/ngpio"
      (plain_file "64\n") missing_file)

/-- The values an `int` can hold. -/
def int_range (v : Int) : Prop := INT_MIN ≤ v ∧ v ≤ INT_MAX
/-! ## Order theory of `alphasort` -/

theorem char_eq_of_toNat_eq {a b : Char} (h : a.toNat = b.toNat) : a = b := by
  rw [← Char.ofNat_toNat a, ← Char.ofNat_toNat b, h]

theorem strcmp_total : ∀ a b : List Char, strcmp a b ≤ 0 ∨ strcmp b a ≤ 0
  | [], [] => by simp [strcmp]
  | [], b :: bs => by left; simp only [strcmp]; omega
  | a :: as, [] => by right; simp only [strcmp]; omega
  | a :: as, b :: bs => by
    have ih := strcmp_total as bs
    simp only [strcmp]
    split_ifs <;> omega

theorem strcmp_trans : ∀ a b c : List Char,
    strcmp a b ≤ 0 → strcmp b c ≤ 0 → strcmp a c ≤ 0
  | [], _, [] => by intros; simp [strcmp]
  | [], _, c :: cs => by intros; simp only [strcmp]; omega
  | a :: as, [], [] => by intro h _; exact h
  | a :: as, [], c :: cs => by
    intro h _
    simp only [strcmp] at h ⊢
    split_ifs <;> omega
  | a :: as, b :: bs, [] => by
    intro h1 h2
    simp only [strcmp] at h1 h2 ⊢
    split_ifs at h1 <;> omega
  | a :: as, b :: bs, c :: cs => by
    intro h1 h2
    have ih := strcmp_trans as bs cs
    simp only [strcmp] at h1 h2 ⊢
    split_ifs at h1 h2 ⊢ <;> omega

theorem strcmp_antisymm : ∀ a b : List Char, nul_free a → nul_free b →
    strcmp a b ≤ 0 → strcmp b a ≤ 0 → a = b
  | [], [] => by intros; rfl
  | [], b :: bs => by
    intro _ hb _ h
    have := hb b (List.mem_cons_self _ _)
    simp only [strcmp] at h
    omega
  | a :: as, [] => by
    intro ha _ h _
    have := ha a (List.mem_cons_self _ _)
    simp only [strcmp] at h
    omega
  | a :: as, b :: bs => by
    intro ha hb h1 h2
    have ha0 := ha a (List.mem_cons_self _ _)
    have ih := strcmp_antisymm as bs (fun c hc => ha c (List.mem_cons_of_mem _ hc))
      (fun c hc => hb c (List.mem_cons_of_mem _ hc))
    simp only [strcmp] at h1 h2
    by_cases hab : a.toNat = b.toNat
    · have e : b = a := (char_eq_of_toNat_eq hab).symm
      subst e
      simp only [ne_eq, not_true_eq_false, if_false, ha0] at h1 h2
      rw [ih h1 h2]
    · have hba : ¬ b.toNat = a.toNat := fun h => hab h.symm
      simp only [ne_eq, hab, hba, not_false_eq_true, if_true] at h1 h2
      omega

instance alpha_le_total : IsTotal (List Char) alpha_le := ⟨strcmp_total⟩

instance alpha_le_trans : IsTrans (List Char) alpha_le := ⟨strcmp_trans⟩

/-- The sorted name list does not depend on the order in which the directory
delivers the names: every sort by `alphasort` of the same NUL free names
returns `qsort_names`. -/
theorem qsort_names_perm_invariant {l₁ l₂ : List (List Char)} (hp : l₁.Perm l₂)
    (hn : ∀ s ∈ l₁, nul_free s) : qsort_names l₁ = qsort_names l₂ := by
  have p1 := List.perm_insertionSort alpha_le l₁
  have p2 := List.perm_insertionSort alpha_le l₂
  refine List.Perm.eq_of_sorted ?_ (List.sorted_insertionSort alpha_le l₁)
    (List.sorted_insertionSort alpha_le l₂) (p1.trans (hp.trans p2.symm))
  intro a b ha hb hab hba
  exact strcmp_antisymm a b (hn a (p1.subset ha)) (hn b (hp.symm.subset (p2.subset hb))) hab hba

/-- The filter keeps exactly the names that begin with `gpiochip`. -/
theorem strncmp_eq_zero_iff : ∀ (p s : List Char), nul_free p →
    (strncmp s p p.length = 0 ↔ p <+: s)
  | [], s, _ => by simp [strncmp]
  | b :: bs, [], hp => by
    have := hp b (List.mem_cons_self _ _)
    simp only [List.length_cons, strncmp]
    constructor
    · intro h; omega
    · intro h; simp at h
  | b :: bs, a :: as, hp => by
    have hb0 := hp b (List.mem_cons_self _ _)
    have ih := strncmp_eq_zero_iff bs as (fun c hc => hp c (List.mem_cons_of_mem _ hc))
    simp only [List.length_cons, strncmp, List.cons_prefix_cons]
    by_cases hab : a.toNat = b.toNat
    · have ha0 : a.toNat ≠ 0 := by omega
      have e : b = a := (char_eq_of_toNat_eq hab).symm
      subst e
      simp only [ne_eq, not_true_eq_false, if_false, ha0, true_and]
      exact ih
    · have hne : ¬ b = a := fun h => hab (by rw [h])
      simp only [ne_eq, hab, not_false_eq_true, if_true, hne, false_and, iff_false]
      omega

theorem filter_gpiochip_iff (d_name : List Char) :
    cnxk_gpio_filter_gpiochip d_name = true ↔ "gpiochip".toList <+: d_name := by
  unfold cnxk_gpio_filter_gpiochip strlen
  simp only [decide_eq_true_eq]
  exact strncmp_eq_zero_iff _ _ (by unfold nul_free; decide)



/-! ## Discovery: `cnxk_gpio_set_defaults` -/

theorem match_literal_of_isPrefix : ∀ (p s : List Char), p <+: s →
    match_literal p s = .ok (s.drop p.length)
  | [], s, _ => by simp [match_literal]
  | f :: fs, [], h => by simp at h
  | f :: fs, c :: cs, h => by
    rw [List.cons_prefix_cons] at h
    obtain ⟨rfl, h⟩ := h
    simp [match_literal, match_literal_of_isPrefix fs cs h]

/-- Without a usable listing the chip is returned as it came. -/
theorem set_defaults_of_error (w : World) (gpiochip : cnxk_gpiochip) (e : Errc)
    (h : w.class_gpio = .error e) :
    cnxk_gpio_set_defaults w gpiochip = (gpiochip, { w with errno := e.code }) := by
  simp [cnxk_gpio_set_defaults, scandir, h]

theorem set_defaults_of_nil (w : World) (gpiochip : cnxk_gpiochip) (l : List (List Char))
    (h : w.class_gpio = .ok l) (hf : l.filter cnxk_gpio_filter_gpiochip = []) :
    cnxk_gpio_set_defaults w gpiochip = (gpiochip, w) := by
  simp [cnxk_gpio_set_defaults, scandir, h, hf, qsort_names]

/-- With a candidate, `sscanf` on the first sorted name decides. -/
theorem set_defaults_of_cons (w : World) (gpiochip : cnxk_gpiochip) (l : List (List Char))
    (d : List Char) (rest : List (List Char)) (h : w.class_gpio = .ok l)
    (hs : qsort_names (l.filter cnxk_gpio_filter_gpiochip) = d :: rest) :
    cnxk_gpio_set_defaults w gpiochip =
      ({ gpiochip with num := (sscanf_d w d "gpiochip".toList gpiochip.num).2.1 },
        (sscanf_d w d "gpiochip".toList gpiochip.num).2.2) := by
  have hn : ¬ ((rest.length : Int) + 1 < 0 ∨ (rest.length : Int) + 1 = 0) := by omega
  simp [cnxk_gpio_set_defaults, scandir, h, hs, hn]

/-- C9: when the listing directory is absent (`scandir` fails), is empty, or
holds no entry whose name begins with `gpiochip`, `cnxk_gpio_set_defaults`
returns normally with the chip, and so the controller index, exactly as the
caller passed it; the world changes at most in `errno`. -/
theorem set_defaults_no_candidate (w : World) (gpiochip : cnxk_gpiochip)
    (h : (∃ e, w.class_gpio = .error e) ∨
      (∃ l, w.class_gpio = .ok l ∧ ∀ d ∈ l, ¬ "gpiochip".toList <+: d)) :
    (cnxk_gpio_set_defaults w gpiochip).1 = gpiochip ∧
      ∃ n, (cnxk_gpio_set_defaults w gpiochip).2 = { w with errno := n } := by
  rcases h with ⟨e, he⟩ | ⟨l, hl, hno⟩
  · rw [set_defaults_of_error w gpiochip e he]
    exact ⟨rfl, _, rfl⟩
  · have hf : l.filter cnxk_gpio_filter_gpiochip = [] := by
      rw [List.filter_eq_nil_iff]
      intro d hd
      rw [filter_gpiochip_iff]
      exact hno d hd
    rw [set_defaults_of_nil w gpiochip l hl hf]
    exact ⟨rfl, w.errno, rfl⟩

theorem set_defaults_no_candidate_witness :
    (cnxk_gpio_set_defaults (world_of (.error Errc.ENOENT) (fun _ => missing_file))
        { cnxk_gpiochip_zero with num := 7 }).1.num = 7 ∧
    (cnxk_gpio_set_defaults (world_of (.ok ["export".toList, "unexport".toList])
        (fun _ => missing_file)) { cnxk_gpiochip_zero with num := 7 }).1.num = 7 := by
  constructor
  · rw [(set_defaults_no_candidate _ _ (Or.inl ⟨Errc.ENOENT, rfl⟩)).1]
  · rw [(set_defaults_no_candidate _ _ (Or.inr ⟨_, rfl, by decide⟩)).1]

/-- C1 (as stated, refuted): with the entries gpiochip2, gpiochip10 and other,
discovery sets the controller index to 10, not to 2: `alphasort` puts
gpiochip10 before gpiochip2. -/
theorem set_defaults_selects_gpiochip2_counterexample :
    (cnxk_gpio_set_defaults
        (world_of (.ok ["gpiochip2".toList, "gpiochip10".toList, "other".toList])
          (fun _ => missing_file)) cnxk_gpiochip_zero).1.num = 10 ∧
    (cnxk_gpio_set_defaults
        (world_of (.ok ["gpiochip2".toList, "gpiochip10".toList, "other".toList])
          (fun _ => missing_file)) cnxk_gpiochip_zero).1.num ≠ 2 := by
  decide

/-- C1 (amended): for every listing directory whose entries are gpiochip2,
gpiochip10 and other, in any on-disk order, discovery selects gpiochip10: the
controller index becomes 10, whatever it was. -/
theorem set_defaults_selects_gpiochip10 (w : World) (gpiochip : cnxk_gpiochip)
    (l : List (List Char)) (hl : w.class_gpio = .ok l)
    (hp : l.Perm ["gpiochip2".toList, "gpiochip10".toList, "other".toList]) :
    (cnxk_gpio_set_defaults w gpiochip).1.num = 10 := by
  have hf := hp.filter cnxk_gpio_filter_gpiochip
  have hn : ∀ s ∈ l.filter cnxk_gpio_filter_gpiochip, nul_free s := by
    have hall : ∀ s ∈ List.filter cnxk_gpio_filter_gpiochip
        ["gpiochip2".toList, "gpiochip10".toList, "other".toList], nul_free s := by
      unfold nul_free
      decide
    exact fun s hs => hall s (hf.subset hs)
  have hq := qsort_names_perm_invariant hf hn
  have hc : qsort_names (List.filter cnxk_gpio_filter_gpiochip
      ["gpiochip2".toList, "gpiochip10".toList, "other".toList]) =
      ["gpiochip10".toList, "gpiochip2".toList] := by decide
  rw [hc] at hq
  rw [set_defaults_of_cons w gpiochip l _ _ hl hq]
  rfl

theorem set_defaults_selects_gpiochip10_witness :
    (cnxk_gpio_set_defaults
        (world_of (.ok ["other".toList, "gpiochip10".toList, "gpiochip2".toList])
          (fun _ => missing_file)) { cnxk_gpiochip_zero with num := 2 }).1.num = 10 :=
  set_defaults_selects_gpiochip10 _ _ _ rfl (by decide)

/-- C8 (as stated, refuted): with the entries gpiochip and gpiochip3 the first
sorted name is the bare gpiochip, whose suffix holds no number; discovery does
not go on to gpiochip3 and the controller index stays at the caller's 0. -/
theorem set_defaults_skips_unparsable_counterexample :
    (cnxk_gpio_set_defaults
        (world_of (.ok ["gpiochip".toList, "gpiochip3".toList]) (fun _ => missing_file))
        cnxk_gpiochip_zero).1.num = 0 ∧
    (cnxk_gpio_set_defaults
        (world_of (.ok ["gpiochip".toList, "gpiochip3".toList]) (fun _ => missing_file))
        cnxk_gpiochip_zero).1.num ≠ 3 := by
  decide

/-- C8 (amended): for every listing directory with matching entries, the
alphabetically first matching entry `d` alone decides, and a suffix that does
not parse is not fatal: when the text after `gpiochip` in `d` holds no integer
the chip, and so the controller index, is left as the caller passed it, whatever
the other entries are; when it holds the integer `v` the index becomes `v`
(stored through `int`). -/
theorem set_defaults_first_entry_only (w : World) (gpiochip : cnxk_gpiochip)
    (l : List (List Char)) (d : List Char) (rest : List (List Char))
    (hl : w.class_gpio = .ok l)
    (hs : qsort_names (l.filter cnxk_gpio_filter_gpiochip) = d :: rest) :
    ((∀ v, scan_decimal (d.drop 8) ≠ some (some v)) →
      (cnxk_gpio_set_defaults w gpiochip).1 = gpiochip) ∧
    (∀ v, scan_decimal (d.drop 8) = some (some v) →
      (cnxk_gpio_set_defaults w gpiochip).1 = { gpiochip with num := to_int (clamp_long v) }) := by
  have hd : d ∈ l.filter cnxk_gpio_filter_gpiochip := by
    have : d ∈ qsort_names (l.filter cnxk_gpio_filter_gpiochip) := by
      rw [hs]; exact List.mem_cons_self _ _
    exact (List.perm_insertionSort alpha_le _).subset this
  have hpre : "gpiochip".toList <+: d :=
    (filter_gpiochip_iff d).1 (List.mem_filter.1 hd).2
  have hm := match_literal_of_isPrefix _ _ hpre
  have h8 : "gpiochip".toList.length = 8 := by decide
  rw [h8] at hm
  rw [set_defaults_of_cons w gpiochip l d rest hl hs]
  unfold sscanf_d
  rw [hm]
  constructor
  · intro hno
    rcases hsd : scan_decimal (d.drop 8) with _ | _ | v
    · simp only [hsd]
    · simp only [hsd]
    · exact absurd hsd (hno v)
  · intro v hv
    simp only [hv]

theorem set_defaults_first_entry_only_witness :
    (cnxk_gpio_set_defaults
        (world_of (.ok ["gpiochip3".toList, "export".toList, "gpiochip".toList])
          (fun _ => missing_file)) { cnxk_gpiochip_zero with num := 7 }).1 =
      { cnxk_gpiochip_zero with num := 7 } :=
  (set_defaults_first_entry_only _ _ _ "gpiochip".toList ["gpiochip3".toList] rfl
    (by decide)).1
    (fun v h => by
      have e : scan_decimal (List.drop 8 "gpiochip".toList) = none := by decide
      rw [e] at h
      cases h)

/-! ## Argument resolution and attribute reading: what the code does on malformed text -/

/-- C2 (code defect): the override `gpiochip=abc` is not rejected.  `strtol`
finds no digit, returns 0 and leaves `errno` at the 0 just stored, so
`cnxk_gpio_parse_arg_gpiochip` and `cnxk_gpio_parse_args` return 0 and the
prior controller index is overwritten with 0; `gpiochip=12abc` likewise
succeeds and stores 12. -/
theorem parse_args_accepts_malformed (w : World) (gpiochip : cnxk_gpiochip) :
    cnxk_gpio_parse_arg_gpiochip w "gpiochip".toList "abc".toList gpiochip.num =
      (0, 0, { w with errno := 0 }) ∧
    cnxk_gpio_parse_args w gpiochip (devargs_gpiochip "abc").devargs =
      (0, { gpiochip with num := 0 }, { w with errno := 0 }) ∧
    cnxk_gpio_parse_args w gpiochip (devargs_gpiochip "12abc").devargs =
      (0, { gpiochip with num := 12 }, { w with errno := 0 }) :=
  ⟨rfl, rfl, rfl⟩

/-- C3 (code defect): for an attribute file holding the token `abc`,
`cnxk_gpio_read_attr_int` returns 0 and leaves `*val` as it was (`sscanf`
returns 0, and only a negative result is treated as a failure); for the token
`12abc` it returns 0 and stores 12. -/
theorem read_attr_int_accepts_malformed (val : Int) :
    (cnxk_gpio_read_attr_int (world_of (.ok []) (fun _ => plain_file "abc\n"))
        (attr_path 2 "base".toList) val).map (fun r => (r.1, r.2.1)) = some (0, val) ∧
    (cnxk_gpio_read_attr_int (world_of (.ok []) (fun _ => plain_file "12abc\n"))
        (attr_path 2 "base".toList) val).map (fun r => (r.1, r.2.1)) = some (0, 12) :=
  ⟨rfl, rfl⟩

/-- C10 (code defect): `cnxk_gpio_read_attr` returns with the stream still open
when `fscanf` does not deliver a token.  For an empty attribute file in a
world without open streams it returns (`-errno`, here 0) with one stream
open; when the read fails with `EIO` it returns -5 with one stream open.  On
the path with a token the stream is closed. -/
theorem read_attr_leaves_stream_open :
    (cnxk_gpio_read_attr (world_of (.ok []) (fun _ => plain_file ""))
        (attr_path 2 "base".toList) { size := CNXK_GPIO_BUFSZ, str := none }).map
      (fun r => (r.1, r.2.2.open_streams)) = some (0, 1) ∧
    (cnxk_gpio_read_attr
        (world_of (.ok []) (fun _ => { plain_file "64" with read_errno := some Errc.EIO_ }))
        (attr_path 2 "base".toList) { size := CNXK_GPIO_BUFSZ, str := none }).map
      (fun r => (r.1, r.2.2.open_streams)) = some (-5, 1) ∧
    (cnxk_gpio_read_attr (world_of (.ok []) (fun _ => plain_file "64"))
        (attr_path 2 "base".toList) { size := CNXK_GPIO_BUFSZ, str := none }).map
      (fun r => (r.1, r.2.2.open_streams)) = some (0, 0) :=
  ⟨rfl, rfl, rfl⟩

/-! ## Decimal literals -/

theorem digits_value_eq_ofDigits (ds : List Char) :
    digits_value ds = Nat.ofDigits 10 (ds.reverse.map digit_val) := by
  induction ds using List.reverseRecOn with
  | nil => rfl
  | append_singleton ds d ih =>
    unfold digits_value at ih ⊢
    rw [List.foldl_append, List.reverse_append, ih]
    simp only [List.foldl_cons, List.foldl_nil, List.reverse_cons, List.reverse_nil,
      List.nil_append, List.singleton_append, List.map_cons, Nat.ofDigits_cons, digit_val]
    ring

theorem scan_decimal_of_dec_literal (s : List Char) (v : Int) (h : dec_literal s v) :
    scan_decimal s = some (some v) := by
  obtain ⟨ds, hne, hdig, hs⟩ := h
  have htw : ds.takeWhile isdigit = ds := List.takeWhile_eq_self_iff.2 hdig
  obtain ⟨c, cs, rfl⟩ : ∃ c cs, ds = c :: cs := by
    cases ds with
    | nil => exact absurd rfl hne
    | cons c cs => exact ⟨c, cs, rfl⟩
  have hc : isdigit c = true := hdig c (List.mem_cons_self _ _)
  simp only [isdigit, Bool.and_eq_true, decide_eq_true_eq] at hc
  rcases hs with ⟨rfl, rfl⟩ | ⟨rfl, rfl⟩ | ⟨rfl, rfl⟩
  · have hsp : isspace c = false := by
      simp only [isspace, Bool.or_eq_false_iff, Bool.and_eq_false_iff, decide_eq_false_iff_not]
      omega
    have h45 : ¬ c.toNat = 45 := by omega
    have h43 : ¬ c.toNat = 43 := by omega
    simp [scan_decimal, List.dropWhile_cons, hsp, h45, h43, htw, digits_value_eq_ofDigits]
  · have hsp : isspace (Char.ofNat 43) = false := by decide
    have h43 : (Char.ofNat 43).toNat = 43 := by decide
    have h45 : ¬ (Char.ofNat 43).toNat = 45 := by decide
    simp [scan_decimal, List.dropWhile_cons, hsp, h45, h43, htw, digits_value_eq_ofDigits]
  · have hsp : isspace (Char.ofNat 45) = false := by decide
    have h45 : (Char.ofNat 45).toNat = 45 := by decide
    simp [scan_decimal, List.dropWhile_cons, hsp, h45, htw, digits_value_eq_ofDigits]

theorem to_int_of_int_range (v : Int) (hmin : INT_MIN ≤ v) (hmax : v ≤ INT_MAX) :
    to_int v = v := by
  unfold INT_MIN at hmin
  unfold INT_MAX at hmax
  unfold to_int
  omega

theorem parse_arg_gpiochip_of_dec_literal (w : World) (key s : List Char) (v extra : Int)
    (hlit : dec_literal s v) (hmin : INT_MIN ≤ v) (hmax : v ≤ INT_MAX) :
    cnxk_gpio_parse_arg_gpiochip w key s extra = (0, v, { w with errno := 0 }) := by
  have hlo : ¬ (v < LONG_MIN ∨ LONG_MAX < v) := by
    unfold INT_MIN at hmin
    unfold INT_MAX at hmax
    unfold LONG_MIN LONG_MAX
    omega
  simp [cnxk_gpio_parse_arg_gpiochip, strtol, scan_decimal_of_dec_literal s v hlit, hlo,
    to_int_of_int_range v hmin hmax]

theorem parse_args_of_dec_literal (w : World) (gpiochip : cnxk_gpiochip) (s : List Char)
    (v : Int) (hlit : dec_literal s v) (hmin : INT_MIN ≤ v) (hmax : v ≤ INT_MAX) :
    cnxk_gpio_parse_args w gpiochip
        { args := some { pairs := [(CNXK_GPIO_ARG_GPIOCHIP, s)] } } =
      (0, { gpiochip with num := v }, { w with errno := 0 }) := by
  simp [cnxk_gpio_parse_args, rte_kvargs_parse, rte_kvargs_count, rte_kvargs_process,
    parse_arg_gpiochip_of_dec_literal w _ s v _ hlit hmin hmax]

/-! ## The decimal rendering of `snprintf` -/

theorem digitChar_toNat (k : Nat) (hk : k < 10) : (Nat.digitChar k).toNat = 48 + k := by
  interval_cases k <;> rfl

theorem toDigitsCore_spec : ∀ (fuel n : Nat) (ds : List Char), n < fuel →
    ∃ L : List Char, Nat.toDigitsCore 10 fuel n ds = L ++ ds ∧ L ≠ [] ∧
      (∀ c ∈ L, isdigit c = true) ∧ digits_value L = n
  | 0, n, ds, h => absurd h (Nat.not_lt_zero n)
  | fuel + 1, n, ds, h => by
    have hmod : n % 10 < 10 := Nat.mod_lt n (by decide)
    have hd := digitChar_toNat (n % 10) hmod
    have hdig : isdigit (Nat.digitChar (n % 10)) = true := by
      simp only [isdigit, hd, Bool.and_eq_true, decide_eq_true_eq]
      omega
    simp only [Nat.toDigitsCore]
    by_cases h0 : n / 10 = 0
    · simp only [h0, if_true]
      refine ⟨[Nat.digitChar (n % 10)], rfl, by simp, ?_, ?_⟩
      · intro c hc
        rw [List.mem_singleton] at hc
        rw [hc]; exact hdig
      · simp only [digits_value, List.foldl_cons, List.foldl_nil, hd]
        omega
    · simp only [h0, if_false]
      obtain ⟨L, hL, hne, hall, hval⟩ :=
        toDigitsCore_spec fuel (n / 10) (Nat.digitChar (n % 10) :: ds) (by omega)
      refine ⟨L ++ [Nat.digitChar (n % 10)], ?_, by simp, ?_, ?_⟩
      · rw [hL]; simp
      · intro c hc
        rw [List.mem_append, List.mem_singleton] at hc
        rcases hc with hc | hc
        · exact hall c hc
        · rw [hc]; exact hdig
      · unfold digits_value at hval ⊢
        rw [List.foldl_append, hval]
        simp only [List.foldl_cons, List.foldl_nil, hd]
        omega

/-- What `%d` prints for `v` is a base 10 literal of value `v`. -/
theorem fmt_d_dec_literal (v : Int) : dec_literal (fmt_d v) v := by
  obtain ⟨L, hL, hne, hall, hval⟩ := toDigitsCore_spec (v.natAbs + 1) v.natAbs [] (by omega)
  rw [List.append_nil] at hL
  have hT : Nat.toDigits 10 v.natAbs = L := hL
  rw [digits_value_eq_ofDigits] at hval
  refine ⟨L, hne, hall, ?_⟩
  unfold fmt_d
  rw [hT, hval]
  by_cases hv : v < 0
  · right; right
    simp only [hv, if_true, true_and]
    omega
  · left
    simp only [hv, if_false, true_and]
    omega

theorem fmt_d_length (v : Int) (hv : int_range v) : (fmt_d v).length ≤ 11 := by
  obtain ⟨hmin, hmax⟩ := hv
  unfold INT_MIN at hmin
  unfold INT_MAX at hmax
  have hlen : (Nat.toDigits 10 v.natAbs).length ≤ 10 :=
    Nat.toDigitsCore_length 10 (by decide) (v.natAbs + 1) v.natAbs 10 (by omega) (by decide)
  unfold fmt_d
  split
  · simp only [List.length_cons]; omega
  · omega

/-- For an index in the range of `int` nothing is cut off the attribute path:
it is `/sys/class/gpio/gpiochip`, the decimal rendering of the index, `/` and
the attribute name. -/
theorem attr_path_eq (num : Int) (attr : List Char) (hv : int_range num)
    (ha : attr.length ≤ 5) :
    attr_path num attr =
      "/sys/class/gpio/gpiochip".toList ++ fmt_d num ++ "/".toList ++ attr := by
  have hl := fmt_d_length num hv
  unfold attr_path CNXK_GPIO_CLASS_PATH CNXK_GPIO_BUFSZ
  have e : "/sys/class/gpio".toList ++ "/gpiochip".toList = "/sys/class/gpio/gpiochip".toList := by
    decide
  rw [e]
  apply List.take_of_length_le
  have e2 : "/sys/class/gpio/gpiochip".toList.length = 24 := by decide
  have e3 : "/".toList.length = 1 := by decide
  simp only [List.length_append, e2, e3]
  omega

/-! ## What each step leaves untouched -/

theorem same_devices_refl (w : World) : same_devices w w :=
  ⟨rfl, rfl, rfl, rfl, rfl, rfl⟩

theorem same_devices_trans {a b c : World} (h1 : same_devices a b) (h2 : same_devices b c) :
    same_devices a c := by
  obtain ⟨p1, p2, p3, p4, p5, p6⟩ := h1
  obtain ⟨q1, q2, q3, q4, q5, q6⟩ := h2
  exact ⟨q1.trans p1, q2.trans p2, q3.trans p3, q4.trans p4, q5.trans p5, q6.trans p6⟩

theorem same_devices_errno (w : World) (n : Nat) : same_devices w { w with errno := n } :=
  ⟨rfl, rfl, rfl, rfl, rfl, rfl⟩

theorem sscanf_d_frame (w : World) (s lit : List Char) (val : Int) :
    same_devices w (sscanf_d w s lit val).2.2 := by
  unfold sscanf_d
  split
  · exact same_devices_refl w
  · split
    · exact same_devices_refl w
    · exact same_devices_refl w
    · dsimp only
      split
      · exact same_devices_errno w _
      · exact same_devices_refl w

theorem set_defaults_frame (w : World) (gpiochip : cnxk_gpiochip) :
    same_devices w (cnxk_gpio_set_defaults w gpiochip).2 ∧
    (cnxk_gpio_set_defaults w gpiochip).1.base = gpiochip.base ∧
    (cnxk_gpio_set_defaults w gpiochip).1.num_gpios = gpiochip.num_gpios ∧
    (cnxk_gpio_set_defaults w gpiochip).1.gpios = gpiochip.gpios := by
  rcases hl : w.class_gpio with e | l
  · rw [set_defaults_of_error w gpiochip e hl]
    exact ⟨same_devices_errno w _, rfl, rfl, rfl⟩
  · rcases hs : qsort_names (l.filter cnxk_gpio_filter_gpiochip) with _ | ⟨d, rest⟩
    · have hf : l.filter cnxk_gpio_filter_gpiochip = [] := by
        have := (List.perm_insertionSort alpha_le (l.filter cnxk_gpio_filter_gpiochip)).symm
        unfold qsort_names at hs
        rw [hs] at this
        exact List.perm_nil.1 this
      rw [set_defaults_of_nil w gpiochip l hl hf]
      exact ⟨same_devices_refl w, rfl, rfl, rfl⟩
    · rw [set_defaults_of_cons w gpiochip l d rest hl hs]
      exact ⟨sscanf_d_frame w _ _ _, rfl, rfl, rfl⟩

theorem strtol_frame (w : World) (s : List Char) : same_devices w (strtol w s).2 := by
  unfold strtol
  split
  · split
    · exact same_devices_errno w _
    · exact same_devices_refl w
  · exact same_devices_refl w

theorem parse_arg_gpiochip_frame (w : World) (key value : List Char) (extra : Int) :
    same_devices w (cnxk_gpio_parse_arg_gpiochip w key value extra).2.2 := by
  have hf := strtol_frame { w with errno := 0 } value
  have h0 := same_devices_errno w 0
  unfold cnxk_gpio_parse_arg_gpiochip
  rcases hh : strtol { w with errno := 0 } value with ⟨val, w1⟩
  rw [hh] at hf
  dsimp only at hf ⊢
  split <;> exact same_devices_trans h0 hf

theorem kvargs_process_frame (key : List Char) :
    ∀ (pairs : List (List Char × List Char)) (w : World) (extra : Int),
      same_devices w
        (rte_kvargs_process cnxk_gpio_parse_arg_gpiochip key w pairs extra).2.2 ∧
      (rte_kvargs_process cnxk_gpio_parse_arg_gpiochip key w pairs extra).1 ≤ 0
  | [], w, extra => by simp [rte_kvargs_process, same_devices_refl]
  | p :: ps, w, extra => by
    unfold rte_kvargs_process
    split
    · have hf := parse_arg_gpiochip_frame w p.1 p.2 extra
      rcases hh : cnxk_gpio_parse_arg_gpiochip w p.1 p.2 extra with ⟨r, e, w1⟩
      rw [hh] at hf
      dsimp only at hf ⊢
      split
      · exact ⟨hf, by omega⟩
      · have ih := kvargs_process_frame key ps w1 e
        exact ⟨same_devices_trans hf ih.1, ih.2⟩
    · exact kvargs_process_frame key ps w extra

theorem parse_args_frame (w : World) (gpiochip : cnxk_gpiochip) (devargs : rte_devargs) :
    same_devices w (cnxk_gpio_parse_args w gpiochip devargs).2.2 ∧
    (cnxk_gpio_parse_args w gpiochip devargs).1 ≤ 0 ∧
    (cnxk_gpio_parse_args w gpiochip devargs).2.1.base = gpiochip.base ∧
    (cnxk_gpio_parse_args w gpiochip devargs).2.1.num_gpios = gpiochip.num_gpios ∧
    (cnxk_gpio_parse_args w gpiochip devargs).2.1.gpios = gpiochip.gpios := by
  unfold cnxk_gpio_parse_args
  split
  · exact ⟨same_devices_refl w, le_refl _, rfl, rfl, rfl⟩
  · split
    · rename_i kvlist _ _
      have hk := kvargs_process_frame CNXK_GPIO_ARG_GPIOCHIP kvlist.pairs w gpiochip.num
      rcases hh : rte_kvargs_process cnxk_gpio_parse_arg_gpiochip CNXK_GPIO_ARG_GPIOCHIP
        w kvlist.pairs gpiochip.num with ⟨r, e, w1⟩
      rw [hh] at hk
      dsimp only at hk ⊢
      split
      · exact ⟨hk.1, hk.2, rfl, rfl, rfl⟩
      · exact ⟨hk.1, le_refl _, rfl, rfl, rfl⟩
    · exact ⟨same_devices_refl w, le_refl _, rfl, rfl, rfl⟩

/-! ## The controller index stays an `int` -/

theorem int_range_to_int (v : Int) : int_range (to_int v) := by
  unfold int_range INT_MIN INT_MAX to_int
  omega

theorem sscanf_d_num_range (w : World) (s lit : List Char) (val : Int) (hv : int_range val) :
    int_range (sscanf_d w s lit val).2.1 := by
  unfold sscanf_d
  split
  · exact hv
  · split
    · exact hv
    · exact hv
    · exact int_range_to_int _

theorem set_defaults_num_range (w : World) (gpiochip : cnxk_gpiochip)
    (hv : int_range gpiochip.num) : int_range (cnxk_gpio_set_defaults w gpiochip).1.num := by
  rcases hl : w.class_gpio with e | l
  · rw [set_defaults_of_error w gpiochip e hl]
    exact hv
  · rcases hs : qsort_names (l.filter cnxk_gpio_filter_gpiochip) with _ | ⟨d, rest⟩
    · have hf : l.filter cnxk_gpio_filter_gpiochip = [] := by
        have := (List.perm_insertionSort alpha_le (l.filter cnxk_gpio_filter_gpiochip)).symm
        unfold qsort_names at hs
        rw [hs] at this
        exact List.perm_nil.1 this
      rw [set_defaults_of_nil w gpiochip l hl hf]
      exact hv
    · rw [set_defaults_of_cons w gpiochip l d rest hl hs]
      exact sscanf_d_num_range w _ _ _ hv

theorem parse_arg_gpiochip_num_range (w : World) (key value : List Char) (extra : Int)
    (hv : int_range extra) :
    int_range (cnxk_gpio_parse_arg_gpiochip w key value extra).2.1 := by
  unfold cnxk_gpio_parse_arg_gpiochip
  rcases strtol { w with errno := 0 } value with ⟨val, w1⟩
  dsimp only
  split
  · exact hv
  · exact int_range_to_int _

theorem kvargs_process_num_range (key : List Char) :
    ∀ (pairs : List (List Char × List Char)) (w : World) (extra : Int), int_range extra →
      int_range (rte_kvargs_process cnxk_gpio_parse_arg_gpiochip key w pairs extra).2.1
  | [], w, extra, hv => by simpa [rte_kvargs_process] using hv
  | p :: ps, w, extra, hv => by
    unfold rte_kvargs_process
    split
    · have hr := parse_arg_gpiochip_num_range w p.1 p.2 extra hv
      rcases hh : cnxk_gpio_parse_arg_gpiochip w p.1 p.2 extra with ⟨r, e, w1⟩
      rw [hh] at hr
      dsimp only at hr ⊢
      split
      · exact hr
      · exact kvargs_process_num_range key ps w1 e hr
    · exact kvargs_process_num_range key ps w extra hv

theorem parse_args_num_range (w : World) (gpiochip : cnxk_gpiochip) (devargs : rte_devargs)
    (hv : int_range gpiochip.num) :
    int_range (cnxk_gpio_parse_args w gpiochip devargs).2.1.num := by
  unfold cnxk_gpio_parse_args
  split
  · exact hv
  · split
    · rename_i kvlist _ _
      have hk := kvargs_process_num_range CNXK_GPIO_ARG_GPIOCHIP kvlist.pairs w gpiochip.num hv
      rcases hh : rte_kvargs_process cnxk_gpio_parse_arg_gpiochip CNXK_GPIO_ARG_GPIOCHIP
        w kvlist.pairs gpiochip.num with ⟨r, e, w1⟩
      rw [hh] at hk
      dsimp only at hk ⊢
      split
      · exact hk
      · exact hk
    · exact hv

theorem read_attr_spec (w : World) (attr : List Char) (val : CharBuf) (r : Int)
    (val' : CharBuf) (w' : World)
    (h : cnxk_gpio_read_attr w attr val = some (r, val', w')) :
    same_devices w w' ∧ r ≤ 0 ∧
      (val'.str = val.str ∨
        (val'.str = some (attr_token (w.files attr)) ∧ attr_token (w.files attr) ≠ [])) := by
  unfold cnxk_gpio_read_attr fopen at h
  rcases ho : (w.files attr).open_errno with _ | e
  · simp only [ho] at h
    unfold fscanf_s at h
    rcases hr : (w.files attr).read_errno with _ | e
    · simp only [hr] at h
      by_cases htok : (List.takeWhile (fun c => !isspace c)
          (List.dropWhile isspace (w.files attr).content)) = []
      · simp only [htok, if_true, Int.reduceNeg, Int.reduceLT] at h
        simp only [Option.some.injEq, Prod.mk.injEq] at h
        obtain ⟨rfl, rfl, rfl⟩ := h
        exact ⟨⟨rfl, rfl, rfl, rfl, rfl, rfl⟩, by omega, Or.inl rfl⟩
      · simp only [htok, if_false] at h
        by_cases hsz : val.size < (List.takeWhile (fun c => !isspace c)
            (List.dropWhile isspace (w.files attr).content)).length + 1
        · simp [hsz] at h
        · simp only [hsz, if_false, show ¬ ((1 : Int) < 0) by decide,
            ne_eq, not_true_eq_false] at h
          unfold fclose at h
          rcases hc : (w.files attr).close_errno with _ | e
          · simp only [hc, ne_eq, not_true_eq_false, if_false, Option.some.injEq,
              Prod.mk.injEq] at h
            obtain ⟨rfl, rfl, rfl⟩ := h
            exact ⟨⟨rfl, rfl, rfl, rfl, rfl, rfl⟩, le_refl _, Or.inr ⟨rfl, htok⟩⟩
          · simp only [hc, ne_eq, Int.reduceNeg, show ¬ ((-1 : Int) = 0) by decide,
              not_false_eq_true, if_true, Option.some.injEq, Prod.mk.injEq] at h
            obtain ⟨rfl, rfl, rfl⟩ := h
            exact ⟨⟨rfl, rfl, rfl, rfl, rfl, rfl⟩, by omega, Or.inr ⟨rfl, htok⟩⟩
    · simp only [hr, Int.reduceNeg, Int.reduceLT, if_true, Option.some.injEq,
        Prod.mk.injEq] at h
      obtain ⟨rfl, rfl, rfl⟩ := h
      exact ⟨⟨rfl, rfl, rfl, rfl, rfl, rfl⟩, by omega, Or.inl rfl⟩
  · simp only [ho, Option.some.injEq, Prod.mk.injEq] at h
    obtain ⟨rfl, rfl, rfl⟩ := h
    exact ⟨⟨rfl, rfl, rfl, rfl, rfl, rfl⟩, by omega, Or.inl rfl⟩

theorem read_attr_int_spec (w : World) (attr : List Char) (val r val' : Int) (w' : World)
    (h : cnxk_gpio_read_attr_int w attr val = some (r, val', w')) :
    same_devices w w' ∧ r ≤ 0 ∧
      (r ≠ 0 → val' = val) ∧
      (r = 0 →
        (∀ x, scan_decimal (attr_token (w.files attr)) = some (some x) →
          val' = to_int (clamp_long x)) ∧
        ((∀ x, scan_decimal (attr_token (w.files attr)) ≠ some (some x)) → val' = val)) := by
  unfold cnxk_gpio_read_attr_int at h
  rcases hra : cnxk_gpio_read_attr w attr { size := CNXK_GPIO_BUFSZ, str := none } with
    _ | ⟨ret, buf, w1⟩
  · rw [hra] at h; cases h
  · obtain ⟨hf, hle, hbuf⟩ := read_attr_spec _ _ _ _ _ _ hra
    rw [hra] at h
    dsimp only at h
    by_cases hret : ret = 0
    · subst hret
      simp only [ne_eq, not_true_eq_false, if_false] at h
      rcases hstr : buf.str with _ | str
      · rw [hstr] at h; cases h
      · rw [hstr] at h
        dsimp only at h
        rw [hstr] at hbuf
        have htok : str = attr_token (w.files attr) := by
          rcases hbuf with hb | hb
          · cases hb
          · exact (Option.some.inj hb.1)
        subst htok
        have hsf := sscanf_d_frame w1 (attr_token (w.files attr)) [] val
        unfold sscanf_d at h hsf
        simp only [match_literal] at h hsf
        rcases hsd : scan_decimal (attr_token (w.files attr)) with _ | _ | x
        · simp only [hsd, Int.reduceNeg, Int.reduceLT, if_true, Option.some.injEq,
            Prod.mk.injEq] at h hsf
          obtain ⟨rfl, rfl, rfl⟩ := h
          refine ⟨hf, by omega, fun _ => rfl, fun _ => ⟨?_, fun _ => rfl⟩⟩
          intro x hx; cases hx
        · simp only [hsd, lt_self_iff_false, if_false, Option.some.injEq,
            Prod.mk.injEq] at h hsf
          obtain ⟨rfl, rfl, rfl⟩ := h
          refine ⟨hf, le_refl _, fun _ => rfl, fun _ => ⟨?_, fun _ => rfl⟩⟩
          intro x hx; cases hx
        · simp only [hsd, show ¬ ((1 : Int) < 0) by decide, if_false, Option.some.injEq,
            Prod.mk.injEq] at h hsf
          obtain ⟨rfl, rfl, rfl⟩ := h
          refine ⟨same_devices_trans hf hsf, le_refl _, fun hne => absurd rfl hne,
            fun _ => ⟨?_, fun hno => absurd rfl (hno x)⟩⟩
          intro y hy
          cases hy
          rfl
    · simp only [ne_eq, hret, not_false_eq_true, if_true, Option.some.injEq,
        Prod.mk.injEq] at h
      obtain ⟨rfl, rfl, rfl⟩ := h
      exact ⟨hf, hle, fun _ => rfl, fun h0 => absurd h0 hret⟩

/-- A read that reports success has been given a token by the file. -/
theorem read_attr_int_token (w : World) (attr : List Char) (val val' : Int) (w' : World)
    (h : cnxk_gpio_read_attr_int w attr val = some (0, val', w')) :
    attr_token (w.files attr) ≠ [] := by
  unfold cnxk_gpio_read_attr_int at h
  rcases hra : cnxk_gpio_read_attr w attr { size := CNXK_GPIO_BUFSZ, str := none } with
    _ | ⟨ret, buf, w1⟩
  · rw [hra] at h; cases h
  · obtain ⟨-, -, hbuf⟩ := read_attr_spec _ _ _ _ _ _ hra
    rw [hra] at h
    dsimp only at h
    by_cases hret : ret = 0
    · rcases hbuf with hb | hb
      · simp only [hret, ne_eq, not_true_eq_false, if_false, hb] at h
        cases h
      · exact hb.2
    · simp only [ne_eq, hret, not_false_eq_true, if_true, Option.some.injEq,
        Prod.mk.injEq] at h
      exact h.1.elim

/-! ## The device table and the heap -/

theorem get_named_dev_eq_none_iff (w : World) (name : List Char) :
    rte_rawdev_pmd_get_named_dev w name = none ↔ ∀ d ∈ w.rte_rawdevs, d.name ≠ name := by
  unfold rte_rawdev_pmd_get_named_dev
  rw [List.find?_eq_none]
  simp

theorem allocate_cases (w : World) (name : List Char) (sz : Nat) :
    rte_rawdev_pmd_allocate w name sz = (none, w) ∨
    (rte_rawdev_pmd_get_named_dev w name = none ∧
      rte_rawdev_pmd_allocate w name sz =
        (some { name := name, dev_private := cnxk_gpiochip_zero },
          attach_rawdev w { name := name, dev_private := cnxk_gpiochip_zero })) := by
  unfold rte_rawdev_pmd_allocate
  rcases hg : rte_rawdev_pmd_get_named_dev w name with _ | d
  · simp only [Option.isSome_none, Bool.false_eq_true, if_false]
    split
    · exact Or.inl rfl
    · split
      · exact Or.inl rfl
      · exact Or.inr ⟨trivial, rfl⟩
  · simp

/-- Releasing the object just allocated, whatever happened to `errno` and the
streams in between, gives back the table and the heap of before. -/
theorem release_restores (w wx : World) (name : List Char)
    (hnone : rte_rawdev_pmd_get_named_dev w name = none)
    (hs : same_devices (attach_rawdev w { name := name, dev_private := cnxk_gpiochip_zero })
      wx) :
    (rte_rawdev_pmd_release wx { name := name, dev_private := cnxk_gpiochip_zero }).rte_rawdevs
        = w.rte_rawdevs ∧
    (rte_rawdev_pmd_release wx { name := name, dev_private := cnxk_gpiochip_zero }).heap_live
        = w.heap_live ∧
    (rte_rawdev_pmd_release wx { name := name, dev_private := cnxk_gpiochip_zero }).proc_type
        = w.proc_type := by
  obtain ⟨h1, _, _, h4, h5, _⟩ := hs
  rw [get_named_dev_eq_none_iff] at hnone
  unfold rte_rawdev_pmd_release
  unfold attach_rawdev at h1 h4 h5
  dsimp only at h1 h4 h5 ⊢
  rw [h4, h5]
  refine ⟨?_, by omega, h1⟩
  rw [List.filter_append]
  have e1 : List.filter (fun d : rte_rawdev => decide (d.name ≠ name)) w.rte_rawdevs
      = w.rte_rawdevs := by
    rw [List.filter_eq_self]
    intro d hd
    simpa using hnone d hd
  rw [e1]
  simp

theorem probe_not_primary (w : World) (dev : rte_vdev_device)
    (hp : w.proc_type ≠ rte_proc_type_t.RTE_PROC_PRIMARY) :
    cnxk_gpio_probe w dev = some (0, w) := by
  unfold cnxk_gpio_probe
  rw [if_pos hp]

/-- The paths through `cnxk_gpio_probe` in the primary process. -/
theorem probe_primary_cases (w : World) (dev : rte_vdev_device) (r : Int) (w' : World)
    (hp : w.proc_type = rte_proc_type_t.RTE_PROC_PRIMARY)
    (h : cnxk_gpio_probe w dev = some (r, w')) :
    (rte_rawdev_pmd_allocate w cnxk_gpio_name sizeof_cnxk_gpiochip = (none, w) ∧
      r = -(ENOMEM : Int) ∧ w' = w) ∨
    (rte_rawdev_pmd_get_named_dev w cnxk_gpio_name = none ∧
      ∃ wa rd, rd = cnxk_gpio_rawdev ∧ wa = attach_rawdev w rd ∧
      ∃ ra gpiochip w3,
        cnxk_gpio_parse_args (cnxk_gpio_set_defaults wa cnxk_gpiochip_zero).2
          (cnxk_gpio_set_defaults wa cnxk_gpiochip_zero).1 dev.devargs = (ra, gpiochip, w3) ∧
        ((ra ≠ 0 ∧ r = ra ∧ w' = rte_rawdev_pmd_release w3 rd) ∨
         (ra = 0 ∧ ∃ rb base w4,
            cnxk_gpio_read_attr_int w3 (attr_path gpiochip.num "base".toList) gpiochip.base
              = some (rb, base, w4) ∧
            ((rb ≠ 0 ∧ r = rb ∧ w' = rte_rawdev_pmd_release w4 rd) ∨
             (rb = 0 ∧ ∃ rn n w5,
                cnxk_gpio_read_attr_int w4 (attr_path gpiochip.num "ngpio".toList)
                  gpiochip.num_gpios = some (rn, n, w5) ∧
                ((rn ≠ 0 ∧ r = rn ∧ w' = rte_rawdev_pmd_release w5 rd) ∨
                 (rn = 0 ∧
                   ((rte_calloc w5 (to_size_t n) sizeof_cnxk_gpio_ptr = (none, w5) ∧
                      r = -(ENOMEM : Int) ∧ w' = rte_rawdev_pmd_release w5 rd) ∨
                    (∃ gpios w6,
                      rte_calloc w5 (to_size_t n) sizeof_cnxk_gpio_ptr = (some gpios, w6) ∧
                      r = 0 ∧
                      w' = store_private w6 cnxk_gpio_name
                        { gpiochip with base := base, num_gpios := n,
                                        gpios := some gpios }))))))))) := by
  unfold cnxk_gpio_probe at h
  simp only [hp, ne_eq, not_true_eq_false, if_false] at h
  change (match rte_rawdev_pmd_allocate w cnxk_gpio_name sizeof_cnxk_gpiochip with
    | (none, w) => _ | (some rawdev, w) => _) = _ at h
  rcases allocate_cases w cnxk_gpio_name sizeof_cnxk_gpiochip with ha | ⟨hnone, ha⟩
  · left
    rw [ha] at h
    simp only [Option.some.injEq, Prod.mk.injEq] at h
    exact ⟨ha, h.1.symm, h.2.symm⟩
  · right
    refine ⟨hnone, _, _, rfl, rfl, ?_⟩
    rw [ha] at h
    dsimp only at h
    unfold cnxk_gpio_rawdev
    obtain ⟨wa, hwa⟩ : ∃ wa : World, wa = attach_rawdev w
      { name := cnxk_gpio_name, dev_private := cnxk_gpiochip_zero } := ⟨_, rfl⟩
    rw [← hwa] at h ⊢
    rcases hpa : cnxk_gpio_parse_args (cnxk_gpio_set_defaults wa cnxk_gpiochip_zero).2
      (cnxk_gpio_set_defaults wa cnxk_gpiochip_zero).1 dev.devargs with ⟨ra, gpiochip, w3⟩
    refine ⟨ra, gpiochip, w3, rfl, ?_⟩
    rw [hpa] at h
    dsimp only at h
    by_cases hra : ra = 0
    · right
      refine ⟨hra, ?_⟩
      simp only [hra, ne_eq, not_true_eq_false, if_false] at h
      rcases hb : cnxk_gpio_read_attr_int w3 (attr_path gpiochip.num "base".toList)
        gpiochip.base with _ | ⟨rb, base, w4⟩
      · rw [hb] at h; cases h
      · refine ⟨rb, base, w4, rfl, ?_⟩
        rw [hb] at h
        dsimp only at h
        by_cases hrb : rb = 0
        · right
          refine ⟨hrb, ?_⟩
          simp only [hrb, ne_eq, not_true_eq_false, if_false] at h
          rcases hn : cnxk_gpio_read_attr_int w4 (attr_path gpiochip.num "ngpio".toList)
            gpiochip.num_gpios with _ | ⟨rn, n, w5⟩
          · rw [hn] at h; cases h
          · refine ⟨rn, n, w5, rfl, ?_⟩
            rw [hn] at h
            dsimp only at h
            by_cases hrn : rn = 0
            · right
              refine ⟨hrn, ?_⟩
              simp only [hrn, ne_eq, not_true_eq_false, if_false] at h
              rcases hc : rte_calloc w5 (to_size_t n) sizeof_cnxk_gpio_ptr with ⟨_ | gpios, w6⟩
              · have hw6 : w6 = w5 := by
                  unfold rte_calloc at hc
                  dsimp only at hc
                  split at hc
                  · exact (Prod.mk.inj hc).2.symm
                  · cases (Prod.mk.inj hc).1
                subst hw6
                left
                rw [hc] at h
                simp only [Option.some.injEq, Prod.mk.injEq] at h
                exact ⟨rfl, h.1.symm, h.2.symm⟩
              · right
                rw [hc] at h
                simp only [Option.some.injEq, Prod.mk.injEq] at h
                exact ⟨gpios, w6, rfl, h.1.symm, h.2.symm⟩
            · left
              simp only [ne_eq, hrn, not_false_eq_true, if_true, Option.some.injEq,
                Prod.mk.injEq] at h
              exact ⟨hrn, h.1.symm, h.2.symm⟩
        · left
          simp only [ne_eq, hrb, not_false_eq_true, if_true, Option.some.injEq,
            Prod.mk.injEq] at h
          exact ⟨hrb, h.1.symm, h.2.symm⟩
    · left
      simp only [ne_eq, hra, not_false_eq_true, if_true, Option.some.injEq,
        Prod.mk.injEq] at h
      exact ⟨hra, h.1.symm, h.2.symm⟩

/-- A bind that reports a failure in the primary process reports a negative
status and leaves the device table and the heap as they were before it. -/
theorem probe_failure_restores (w : World) (dev : rte_vdev_device) (r : Int) (w' : World)
    (hp : w.proc_type = rte_proc_type_t.RTE_PROC_PRIMARY)
    (h : cnxk_gpio_probe w dev = some (r, w')) (hr : r ≠ 0) :
    r < 0 ∧ w'.rte_rawdevs = w.rte_rawdevs ∧ w'.heap_live = w.heap_live ∧
      w'.proc_type = w.proc_type := by
  rcases probe_primary_cases w dev r w' hp h with ⟨_, rfl, rfl⟩ | ⟨hnone, wa, rd, rfl, rfl, hrest⟩
  · exact ⟨by decide, rfl, rfl, rfl⟩
  · obtain ⟨ra, gpiochip, w3, hpa, hrest⟩ := hrest
    have hsd := (set_defaults_frame
      (attach_rawdev w cnxk_gpio_rawdev) cnxk_gpiochip_zero).1
    have hpf := parse_args_frame
      (cnxk_gpio_set_defaults (attach_rawdev w cnxk_gpio_rawdev) cnxk_gpiochip_zero).2
      (cnxk_gpio_set_defaults (attach_rawdev w cnxk_gpio_rawdev) cnxk_gpiochip_zero).1 dev.devargs
    rw [hpa] at hpf
    have h3 := same_devices_trans hsd hpf.1
    have hra := hpf.2.1
    dsimp only at hra
    rcases hrest with ⟨hne, rfl, rfl⟩ | ⟨_, rb, base, w4, hb, hrest⟩
    · exact ⟨by omega, release_restores w w3 _ hnone h3⟩
    · obtain ⟨hf4, hrb, _⟩ := read_attr_int_spec _ _ _ _ _ _ hb
      have h4 := same_devices_trans h3 hf4
      rcases hrest with ⟨hne, rfl, rfl⟩ | ⟨_, rn, n, w5, hn, hrest⟩
      · exact ⟨by omega, release_restores w w4 _ hnone h4⟩
      · obtain ⟨hf5, hrn, _⟩ := read_attr_int_spec _ _ _ _ _ _ hn
        have h5 := same_devices_trans h4 hf5
        rcases hrest with ⟨hne, rfl, rfl⟩ | ⟨_, ⟨_, rfl, rfl⟩ | ⟨_, _, _, rfl, _⟩⟩
        · exact ⟨by omega, release_restores w w5 _ hnone h5⟩
        · exact ⟨by decide, release_restores w w5 _ hnone h5⟩
        · exact absurd rfl hr

theorem to_int_range (v : Int) : -(2 ^ 31) ≤ to_int v ∧ to_int v < 2 ^ 31 := by
  unfold to_int
  omega

theorem get_named_dev_release (w : World) (rd : rte_rawdev) :
    rte_rawdev_pmd_get_named_dev (rte_rawdev_pmd_release w rd) rd.name = none := by
  rw [get_named_dev_eq_none_iff]
  intro d hd
  unfold rte_rawdev_pmd_release at hd
  dsimp only at hd
  simpa using (List.mem_filter.1 hd).2

theorem get_named_dev_store (w : World) (l : List rte_rawdev) (name : List Char)
    (c0 gpiochip : cnxk_gpiochip) (hl : ∀ d ∈ l, d.name ≠ name)
    (hw : w.rte_rawdevs = l ++ [{ name := name, dev_private := c0 }]) :
    rte_rawdev_pmd_get_named_dev (store_private w name gpiochip) name =
      some { name := name, dev_private := gpiochip } := by
  unfold rte_rawdev_pmd_get_named_dev store_private
  dsimp only
  rw [hw, List.map_append, List.find?_append]
  have e1 : List.find? (fun d : rte_rawdev => decide (d.name = name))
      (List.map (fun d : rte_rawdev =>
        if d.name = name then { d with dev_private := gpiochip } else d) l) = none := by
    rw [List.find?_eq_none]
    intro d hd
    rw [List.mem_map] at hd
    obtain ⟨d0, hd0, rfl⟩ := hd
    have := hl d0 hd0
    simp [this]
  rw [e1]
  simp

/-- What a completed bind has done. -/
theorem probe_success_inv (w : World) (dev : rte_vdev_device) (w' : World)
    (hp : w.proc_type = rte_proc_type_t.RTE_PROC_PRIMARY)
    (h : cnxk_gpio_probe w dev = some (0, w')) :
    rte_rawdev_pmd_get_named_dev w cnxk_gpio_name = none ∧
    ∃ wa gpiochip w3 base w4 n w5 gpios w6,
      same_devices
        (attach_rawdev w cnxk_gpio_rawdev) wa ∧
      gpiochip.base = 0 ∧ gpiochip.num_gpios = 0 ∧ int_range gpiochip.num ∧
      cnxk_gpio_parse_args wa (cnxk_gpio_set_defaults
        (attach_rawdev w cnxk_gpio_rawdev) cnxk_gpiochip_zero).1 dev.devargs
        = (0, gpiochip, w3) ∧
      cnxk_gpio_read_attr_int w3 (attr_path gpiochip.num "base".toList) gpiochip.base
        = some (0, base, w4) ∧
      cnxk_gpio_read_attr_int w4 (attr_path gpiochip.num "ngpio".toList) gpiochip.num_gpios
        = some (0, n, w5) ∧
      rte_calloc w5 (to_size_t n) sizeof_cnxk_gpio_ptr = (some gpios, w6) ∧
      w' = store_private w6 cnxk_gpio_name
        { gpiochip with base := base, num_gpios := n, gpios := some gpios } := by
  rcases probe_primary_cases w dev 0 w' hp h with ⟨_, h0, _⟩ | ⟨hnone, wa, rd, rfl, rfl, hrest⟩
  · exact absurd h0 (by decide)
  · refine ⟨hnone, ?_⟩
    obtain ⟨ra, gpiochip, w3, hpa, hrest⟩ := hrest
    have hsd := set_defaults_frame
      (attach_rawdev w cnxk_gpio_rawdev) cnxk_gpiochip_zero
    have hpf := parse_args_frame
      (cnxk_gpio_set_defaults (attach_rawdev w cnxk_gpio_rawdev) cnxk_gpiochip_zero).2
      (cnxk_gpio_set_defaults (attach_rawdev w cnxk_gpio_rawdev) cnxk_gpiochip_zero).1 dev.devargs
    rw [hpa] at hpf
    dsimp only at hpf
    rcases hrest with ⟨hne, h0, _⟩ | ⟨hra, rb, base, w4, hb, hrest⟩
    · exact absurd h0.symm hne
    · subst hra
      rcases hrest with ⟨hne, h0, _⟩ | ⟨hrb, rn, n, w5, hn, hrest⟩
      · exact absurd h0.symm hne
      · subst hrb
        rcases hrest with ⟨hne, h0, _⟩ | ⟨hrn, ⟨_, h0, _⟩ | ⟨gpios, w6, hc, _, hw'⟩⟩
        · exact absurd h0.symm hne
        · exact absurd h0 (by decide)
        · subst hrn
          have hrange := parse_args_num_range
            (cnxk_gpio_set_defaults (attach_rawdev w cnxk_gpio_rawdev) cnxk_gpiochip_zero).2
            (cnxk_gpio_set_defaults (attach_rawdev w cnxk_gpio_rawdev) cnxk_gpiochip_zero).1
            dev.devargs
            (set_defaults_num_range _ cnxk_gpiochip_zero (by
              unfold int_range INT_MIN INT_MAX cnxk_gpiochip_zero
              decide))
          rw [hpa] at hrange
          refine ⟨_, gpiochip, w3, base, w4, n, w5, gpios, w6, hsd.1, ?_, ?_, hrange, hpa, hb, hn,
            hc, hw'⟩
          · rw [hpf.2.2.1, hsd.2.1]; rfl
          · rw [hpf.2.2.2.1, hsd.2.2.1]; rfl

theorem bind_gpiochip2 :
    ∃ w', cnxk_gpio_probe world_gpiochip2 no_devargs = some (0, w') ∧
      rte_rawdev_pmd_get_named_dev w' cnxk_gpio_name =
        some { name := cnxk_gpio_name,
               dev_private := { num := 2, base := 64, num_gpios := 32,
                                gpios := some (List.replicate 32 none) } } := by
  have hd : (cnxk_gpio_probe world_gpiochip2 no_devargs).map
      (fun r => (r.1, rte_rawdev_pmd_get_named_dev r.2 cnxk_gpio_name)) =
      some (0, some { name := cnxk_gpio_name,
                      dev_private := { num := 2, base := 64, num_gpios := 32,
                                       gpios := some (List.replicate 32 none) } }) := by
    decide
  rcases hpr : cnxk_gpio_probe world_gpiochip2 no_devargs with _ | ⟨r, w'⟩
  · rw [hpr] at hd
    cases hd
  · rw [hpr] at hd
    simp only [Option.map_some', Option.some.injEq, Prod.mk.injEq] at hd
    obtain ⟨rfl, hg⟩ := hd
    exact ⟨w', rfl, hg⟩

theorem bind_gpiochip5 :
    ∃ w', cnxk_gpio_probe world_gpiochip5 (devargs_gpiochip "5") = some (0, w') := by
  have hd : (cnxk_gpio_probe world_gpiochip5 (devargs_gpiochip "5")).map (fun r => r.1) =
      some 0 := by
    decide
  rcases hpr : cnxk_gpio_probe world_gpiochip5 (devargs_gpiochip "5") with _ | ⟨r, w'⟩
  · rw [hpr] at hd
    cases hd
  · rw [hpr] at hd
    simp only [Option.map_some', Option.some.injEq] at hd
    subst hd
    exact ⟨w', rfl⟩


/-! ## Bind and unbind -/

theorem calloc_some (w : World) (num size : Nat) (gpios : List (Option cnxk_gpio))
    (w6 : World) (h : rte_calloc w num size = (some gpios, w6)) :
    (num * size) % 2 ^ 64 ≠ 0 ∧ w.heap_grants w.heap_live ((num * size) % 2 ^ 64) = true ∧
    gpios = List.replicate ((num * size) % 2 ^ 64 / size) none ∧
    w6.rte_rawdevs = w.rte_rawdevs ∧ w6.proc_type = w.proc_type := by
  unfold rte_calloc at h
  dsimp only at h
  split at h
  · cases (Prod.mk.inj h).1
  · rename_i hc
    rw [not_or] at hc
    obtain ⟨h1, h2⟩ := Prod.mk.inj h
    have h1 := Option.some.inj h1
    subst h1 h2
    exact ⟨hc.1, by simpa using hc.2, rfl, rfl, rfl⟩

/-- C4: every bind in the primary process that reports a failure, whichever
step failed and so in particular when reading the base or the ngpio attribute
failed, reports a negative status, has released the device object (the device
table is the one of before the bind, with no object under the driver's name)
and leaves no Line Slot Array or private data allocated (the heap holds the
blocks of before the bind). -/
theorem probe_failure_rolls_back (w : World) (dev : rte_vdev_device) (r : Int) (w' : World)
    (hp : w.proc_type = rte_proc_type_t.RTE_PROC_PRIMARY)
    (h : cnxk_gpio_probe w dev = some (r, w')) (hr : r ≠ 0) :
    r < 0 ∧ w'.rte_rawdevs = w.rte_rawdevs ∧ w'.heap_live = w.heap_live := by
  obtain ⟨h1, h2, h3, _⟩ := probe_failure_restores w dev r w' hp h hr
  exact ⟨h1, h2, h3⟩

theorem probe_failure_rolls_back_witness :
    ∃ w', cnxk_gpio_probe
        world_ngpio_missing no_devargs = some (-2, w') ∧
      ((-2 : Int) < 0 ∧ w'.rte_rawdevs = [] ∧ w'.heap_live = 0) := by
  refine ⟨_, rfl, ?_⟩
  exact probe_failure_rolls_back
    world_ngpio_missing
    no_devargs (-2) _ rfl rfl (by decide)


theorem attr_path_base (num : Int) (hv : int_range num) :
    attr_path num "base".toList =
      "/sys/class/gpio/gpiochip".toList ++ fmt_d num ++ "/base".toList := by
  rw [attr_path_eq num _ hv (by decide), List.append_assoc]
  rfl

theorem attr_path_ngpio (num : Int) (hv : int_range num) :
    attr_path num "ngpio".toList =
      "/sys/class/gpio/gpiochip".toList ++ fmt_d num ++ "/ngpio".toList := by
  rw [attr_path_eq num _ hv (by decide), List.append_assoc]
  rfl

/-- After a completed bind the driver's name leads to the device object; its
chip carries the index the arguments resolved to, and what the two attribute
files of that controller, found at their literal sysfs paths, delivered. -/
theorem probe_success_facts (w : World) (dev : rte_vdev_device) (w' : World)
    (hp : w.proc_type = rte_proc_type_t.RTE_PROC_PRIMARY)
    (h : cnxk_gpio_probe w dev = some (0, w')) :
    w'.proc_type = rte_proc_type_t.RTE_PROC_PRIMARY ∧
    ∃ (gpiochip : cnxk_gpiochip) (wa : World) (c0 : cnxk_gpiochip),
      rte_rawdev_pmd_get_named_dev w' cnxk_gpio_name =
        some { name := cnxk_gpio_name, dev_private := gpiochip } ∧
      int_range gpiochip.num ∧
      (cnxk_gpio_parse_args wa c0 dev.devargs).1 = 0 ∧
      (cnxk_gpio_parse_args wa c0 dev.devargs).2.1.num = gpiochip.num ∧
      attr_token (w.files ("/sys/class/gpio/gpiochip".toList ++ fmt_d gpiochip.num ++
        "/base".toList)) ≠ [] ∧
      (∀ x, scan_decimal (attr_token (w.files ("/sys/class/gpio/gpiochip".toList ++
          fmt_d gpiochip.num ++ "/base".toList))) = some (some x) →
        gpiochip.base = to_int (clamp_long x)) ∧
      (∃ x, scan_decimal (attr_token (w.files ("/sys/class/gpio/gpiochip".toList ++
          fmt_d gpiochip.num ++ "/ngpio".toList))) = some (some x) ∧
        gpiochip.num_gpios = to_int (clamp_long x)) ∧
      gpiochip.num_gpios ≠ 0 ∧
      (0 < gpiochip.num_gpios →
        gpiochip.gpios = some (List.replicate gpiochip.num_gpios.toNat none)) ∧
      ((∀ live sz, 2 ^ 63 ≤ sz → w.heap_grants live sz = false) →
        0 < gpiochip.num_gpios) := by
  obtain ⟨hnone, wa, gpiochip, w3, base, w4, n, w5, gpios, w6, hsa, hb0, hn0, hrange, hpa, hb,
    hn, hc, rfl⟩ := probe_success_inv w dev w' hp h
  have hpf := (parse_args_frame wa
    (cnxk_gpio_set_defaults (attach_rawdev w cnxk_gpio_rawdev) cnxk_gpiochip_zero).1
    dev.devargs).1
  rw [hpa] at hpf
  dsimp only at hpf
  rw [attr_path_base _ hrange] at hb
  rw [attr_path_ngpio _ hrange] at hn
  obtain ⟨hf4, -, -, hbv⟩ := read_attr_int_spec _ _ _ _ _ _ hb
  obtain ⟨hf5, -, -, hnv⟩ := read_attr_int_spec _ _ _ _ _ _ hn
  have htb := read_attr_int_token _ _ _ _ _ hb
  have h3 := same_devices_trans hsa hpf
  have h4 := same_devices_trans h3 hf4
  have h5 := same_devices_trans h4 hf5
  obtain ⟨hc0, hgr, hgp, hrd6, hpt6⟩ := calloc_some _ _ _ _ _ hc
  have hfiles3 : w3.files = w.files := h3.2.2.1
  have hfiles4 : w4.files = w.files := h4.2.2.1
  have hgrants : w5.heap_grants = w.heap_grants := h5.2.2.2.2.2
  have hrd : w6.rte_rawdevs = w.rte_rawdevs ++ [cnxk_gpio_rawdev] := by
    rw [hrd6, h5.2.2.2.1]; rfl
  rw [hfiles3] at hbv htb
  rw [hfiles4] at hnv
  rw [hgrants] at hgr
  obtain ⟨hnx, hnone'⟩ := hnv rfl
  have hparsed : ∃ x, scan_decimal (attr_token (w.files ("/sys/class/gpio/gpiochip".toList ++
      fmt_d gpiochip.num ++ "/ngpio".toList))) = some (some x) := by
    by_contra hno
    have hz := hnone' (fun x hx => hno ⟨x, hx⟩)
    rw [hn0] at hz
    subst hz
    exact hc0 (by decide)
  obtain ⟨x, hx⟩ := hparsed
  have hnval := hnx x hx
  have hrange_n := int_range_to_int (clamp_long x)
  rw [← hnval] at hrange_n
  unfold int_range INT_MIN INT_MAX at hrange_n
  unfold to_size_t sizeof_cnxk_gpio_ptr at hc0 hgp hgr
  refine ⟨?_, _, wa,
    (cnxk_gpio_set_defaults (attach_rawdev w cnxk_gpio_rawdev) cnxk_gpiochip_zero).1,
    get_named_dev_store w6 w.rte_rawdevs cnxk_gpio_name cnxk_gpiochip_zero _
      ((get_named_dev_eq_none_iff w _).1 hnone) hrd, hrange, ?_, ?_, htb, ?_, ⟨x, hx, hnval⟩,
    ?_, ?_, ?_⟩
  · show w6.proc_type = _
    rw [hpt6, h5.1]
    exact hp
  · rw [hpa]
  · rw [hpa]
  · intro y hy
    exact (hbv rfl).1 y hy
  · show n ≠ 0
    intro hz
    subst hz
    exact hc0 (by decide)
  · intro hpos
    show some gpios = _
    rw [hgp]
    congr 2
    have hpos' : 0 < n := hpos
    show _ = n.toNat
    omega
  · intro hheap
    show 0 < n
    by_contra hle
    have hbig : 2 ^ 63 ≤ (n % 2 ^ 64).toNat * 8 % 2 ^ 64 := by omega
    rw [hheap w5.heap_live _ hbig] at hgr
    cases hgr

/-- C6: whatever index discovery left in the chip, an override `gpiochip=<s>`
whose value `s` is a base 10 integer literal of value `v` in the range of `int`
makes `cnxk_gpio_parse_args` return 0 with the controller index exactly `v`;
a bind given that override which completes has registered a chip with index
`v` whose `base` and `num_gpios` are the numbers read in the files
`/sys/class/gpio/gpiochip<v>/base` and `/sys/class/gpio/gpiochip<v>/ngpio`,
`<v>` being the text `%d` prints for `v`, itself a base 10 literal of value
`v`. -/
theorem parse_args_override (s : List Char) (v : Int) (hlit : dec_literal s v)
    (hmin : INT_MIN ≤ v) (hmax : v ≤ INT_MAX) :
    (∀ (w : World) (gpiochip : cnxk_gpiochip),
      cnxk_gpio_parse_args w gpiochip
          { args := some { pairs := [(CNXK_GPIO_ARG_GPIOCHIP, s)] } } =
        (0, { gpiochip with num := v }, { w with errno := 0 })) ∧
    (∀ (w w' : World), w.proc_type = rte_proc_type_t.RTE_PROC_PRIMARY →
      cnxk_gpio_probe w
          { devargs := { args := some { pairs := [(CNXK_GPIO_ARG_GPIOCHIP, s)] } } } =
        some (0, w') →
      ∃ gpiochip : cnxk_gpiochip,
        rte_rawdev_pmd_get_named_dev w' cnxk_gpio_name =
          some { name := cnxk_gpio_name, dev_private := gpiochip } ∧
        gpiochip.num = v ∧
        (∀ x, scan_decimal (attr_token (w.files ("/sys/class/gpio/gpiochip".toList ++
            fmt_d v ++ "/base".toList))) = some (some x) →
          gpiochip.base = to_int (clamp_long x)) ∧
        (∃ x, scan_decimal (attr_token (w.files ("/sys/class/gpio/gpiochip".toList ++
            fmt_d v ++ "/ngpio".toList))) = some (some x) ∧
          gpiochip.num_gpios = to_int (clamp_long x))) ∧
    dec_literal (fmt_d v) v := by
  refine ⟨fun w gpiochip => parse_args_of_dec_literal w gpiochip s v hlit hmin hmax, ?_,
    fmt_d_dec_literal v⟩
  intro w w' hp h
  obtain ⟨-, gpiochip, wa, c0, hg, -, -, hnum, -, hbase, hngpio, -⟩ :=
    probe_success_facts w _ w' hp h
  dsimp only at hnum
  rw [parse_args_of_dec_literal wa c0 s v hlit hmin hmax] at hnum
  dsimp only at hnum
  refine ⟨gpiochip, hg, hnum.symm, ?_, ?_⟩
  · rw [hnum]; exact hbase
  · rw [hnum]; exact hngpio

theorem parse_args_override_witness :
    (cnxk_gpio_parse_args world_gpiochip5 { cnxk_gpiochip_zero with num := 2 }
        (devargs_gpiochip "5").devargs).2.1.num = 5 ∧
    "/sys/class/gpio/gpiochip".toList ++ fmt_d 5 ++ "/base".toList =
      "/sys/class/gpio/gpiochip5/base".toList ∧
    ∃ w' gpiochip, cnxk_gpio_probe world_gpiochip5 (devargs_gpiochip "5") = some (0, w') ∧
      rte_rawdev_pmd_get_named_dev w' cnxk_gpio_name =
        some { name := cnxk_gpio_name, dev_private := gpiochip } ∧
      gpiochip.num = 5 ∧ gpiochip.base = 96 ∧ gpiochip.num_gpios = 16 := by
  have hlit : dec_literal "5".toList 5 :=
    ⟨"5".toList, by decide, by decide, Or.inl ⟨rfl, by decide⟩⟩
  obtain ⟨h1, h2, -⟩ := parse_args_override "5".toList 5 hlit (by decide) (by decide)
  refine ⟨?_, by decide, ?_⟩
  · have h := h1 world_gpiochip5 { cnxk_gpiochip_zero with num := 2 }
    show (cnxk_gpio_parse_args _ _ { args := some { pairs := [(CNXK_GPIO_ARG_GPIOCHIP,
      "5".toList)] } }).2.1.num = 5
    rw [h]
  · obtain ⟨w', hpr⟩ := bind_gpiochip5
    obtain ⟨c, hg, hnum, hbase, x, hx, hn⟩ := h2 world_gpiochip5 w' rfl hpr
    have hx16 : scan_decimal (attr_token (world_gpiochip5.files
        ("/sys/class/gpio/gpiochip".toList ++ fmt_d 5 ++ "/ngpio".toList))) =
        some (some 16) := by decide
    rw [hx16] at hx
    have hx' : x = 16 := by
      have := Option.some.inj (Option.some.inj hx)
      exact this.symm
    subst hx'
    exact ⟨w', c, hpr, hg, hnum, hbase 96 (by decide), hn⟩

/-- C7: in the primary process `cnxk_gpio_remove` returns 0 exactly when a
device object is registered under the driver's name, and fails with `-ENODEV`,
changing nothing, when none is: in a world without the object, after a bind
that failed from such a world, and on the second unbind after a bind that
completed and a first unbind that returned 0. -/
theorem remove_not_found (w : World) (dev : rte_vdev_device)
    (hp : w.proc_type = rte_proc_type_t.RTE_PROC_PRIMARY) :
    ((cnxk_gpio_remove w dev).1 = 0 ↔
      (rte_rawdev_pmd_get_named_dev w cnxk_gpio_name).isSome = true) ∧
    (rte_rawdev_pmd_get_named_dev w cnxk_gpio_name = none →
      cnxk_gpio_remove w dev = (-(ENODEV : Int), w)) ∧
    (rte_rawdev_pmd_get_named_dev w cnxk_gpio_name = none →
      ∀ r w', cnxk_gpio_probe w dev = some (r, w') → r ≠ 0 →
        cnxk_gpio_remove w' dev = (-(ENODEV : Int), w')) ∧
    (∀ w', cnxk_gpio_probe w dev = some (0, w') →
      (cnxk_gpio_remove w' dev).1 = 0 ∧
      (cnxk_gpio_remove (cnxk_gpio_remove w' dev).2 dev).1 = -(ENODEV : Int)) := by
  have hrem : ∀ w0 : World, w0.proc_type = rte_proc_type_t.RTE_PROC_PRIMARY →
      rte_rawdev_pmd_get_named_dev w0 cnxk_gpio_name = none →
      cnxk_gpio_remove w0 dev = (-(ENODEV : Int), w0) := by
    intro w0 hp0 hn0
    unfold cnxk_gpio_remove
    simp only [hp0, ne_eq, not_true_eq_false, if_false]
    change (match rte_rawdev_pmd_get_named_dev w0 cnxk_gpio_name with
      | none => _ | some rawdev => _) = _
    rw [hn0]
  have hrem1 : ∀ (w0 : World) (rd : rte_rawdev),
      w0.proc_type = rte_proc_type_t.RTE_PROC_PRIMARY →
      rte_rawdev_pmd_get_named_dev w0 cnxk_gpio_name = some rd →
      cnxk_gpio_remove w0 dev =
        (0, rte_rawdev_pmd_release (rte_free w0 rd.dev_private.gpios) rd) := by
    intro w0 rd hp0 hs0
    unfold cnxk_gpio_remove
    simp only [hp0, ne_eq, not_true_eq_false, if_false]
    change (match rte_rawdev_pmd_get_named_dev w0 cnxk_gpio_name with
      | none => _ | some rawdev => _) = _
    rw [hs0]
  refine ⟨?_, hrem w hp, ?_, ?_⟩
  · rcases hg : rte_rawdev_pmd_get_named_dev w cnxk_gpio_name with _ | rd
    · rw [hrem w hp hg]
      simp [ENODEV]
    · rw [hrem1 w rd hp hg]
      simp
  · intro hnone r w' h hr
    obtain ⟨-, hrd, -, hpt⟩ := probe_failure_restores w dev r w' hp h hr
    apply hrem w' (hpt.trans hp)
    unfold rte_rawdev_pmd_get_named_dev at hnone ⊢
    rw [hrd]
    exact hnone
  · intro w' h
    obtain ⟨hp', gpiochip, -, -, hg, -⟩ := probe_success_facts w dev w' hp h
    rw [hrem1 w' _ hp' hg]
    refine ⟨rfl, ?_⟩
    dsimp only
    rw [hrem]
    · show (rte_free w' gpiochip.gpios).proc_type = _
      unfold rte_free
      split
      · exact hp'
      · exact hp'
    · exact get_named_dev_release _ { name := cnxk_gpio_name, dev_private := gpiochip }

theorem remove_not_found_witness :
    (cnxk_gpio_remove world_gpiochip2 no_devargs).1 = -19 ∧
    ∃ w', cnxk_gpio_probe world_gpiochip2 no_devargs = some (0, w') ∧
      (cnxk_gpio_remove w' no_devargs).1 = 0 ∧
      (cnxk_gpio_remove (cnxk_gpio_remove w' no_devargs).2 no_devargs).1 = -19 := by
  obtain ⟨-, h2, -, h4⟩ := remove_not_found world_gpiochip2 no_devargs rfl
  obtain ⟨w', hpr, -⟩ := bind_gpiochip2
  exact ⟨congrArg Prod.fst (h2 rfl), w', hpr, h4 w' hpr⟩

end CnxkGpio
